import Mathlib

/-!
Shallow embedding of `src/cinema_management_system.py` (booking/inventory core).

Conventions of the embedding:
* A CSV row is a `List String`; a store file is a `List String` of lines
  (header line first, as on disk).
* The typed stores (`Movie`, `Aud`, `Show`, `Booking`) model rows whose numeric
  fields parse: the Python code parses those fields with `int(...)` at every
  use and crashes (uncaught exception) on non-numeric content, which is outside
  the result-returning behaviour modelled here.  Fields the code keeps as raw
  strings (ids, names, dates, base price) stay `String`.
* Interactive `input()` values are parameters of the operation functions; the
  payment dialogue of `_book_ticket_common` is modelled by a Boolean `payOk`
  (an invalid menu option aborts the booking; the card-number loop retries
  until it succeeds, so it never aborts).
* Python `int(s)` is modelled for optional-sign decimal strings (the CPython
  extras — inner underscores, exotic unicode digits — are not modelled; no
  value written by the program uses them).  `float(s)` is modelled likewise for
  plain decimal notation (exponents, `inf`, `nan` not modelled).
-/

namespace Cinema

/-- Value of a digit list, most significant first. -/
def digitsToNat (cs : List Char) : Nat :=
  cs.foldl (fun a c => a * 10 + (c.toNat - '0'.toNat)) 0

/-- Parse a nonempty all-digit character list (what Python `int` accepts after
sign stripping). -/
def digitsVal? (cs : List Char) : Option Nat :=
  if cs ≠ [] ∧ cs.all Char.isDigit then some (digitsToNat cs) else none

/-- Strip leading and trailing whitespace from a character list (the
whitespace stripping Python `int`/`float` apply to their argument). -/
def stripChars (cs : List Char) : List Char :=
  ((cs.dropWhile Char.isWhitespace).reverse.dropWhile Char.isWhitespace).reverse

/-- Model of Python `int(s)` on optional-sign decimal strings. -/
def pyInt? (s : String) : Option Int :=
  match stripChars s.toList with
  | '-' :: cs => (digitsVal? cs).map (fun n => -(n : Int))
  | '+' :: cs => (digitsVal? cs).map (fun n => (n : Int))
  | cs => (digitsVal? cs).map (fun n => (n : Int))

/-- Unsigned decimal float body: `digits`, `digits.digits`, `digits.`, `.digits`. -/
def decBody (cs : List Char) : Bool :=
  match cs.splitOn '.' with
  | [a] => !a.isEmpty && a.all Char.isDigit
  | [a, b] => a.all Char.isDigit && b.all Char.isDigit && (!a.isEmpty || !b.isEmpty)
  | _ => false

/-- Model of the `float(s)` parse-check in `add_show`/`upd_show`. -/
def pyFloatOk (s : String) : Bool :=
  match stripChars s.toList with
  | '-' :: cs => decBody cs
  | '+' :: cs => decBody cs
  | cs => decBody cs

/-- Model of `_ensure_positive_int(s)`: `s.isdigit() and int(s) > 0`. -/
def _ensure_positive_int (s : String) : Bool :=
  !s.toList.isEmpty && s.toList.all Char.isDigit && decide (0 < digitsToNat s.toList)

/-- Match against `DATE_RE`, i.e. 4 digits, dash, 2 digits, dash, 2 digits. -/
def dateReOk (s : String) : Bool :=
  match s.toList with
  | [a, b, c, d, '-', e, f, '-', g, h] => [a, b, c, d, e, f, g, h].all Char.isDigit
  | _ => false

/-- Match against `TIME_RE`, i.e. 2 digits, colon, 2 digits. -/
def timeReOk (s : String) : Bool :=
  match s.toList with
  | [a, b, ':', c, d] => [a, b, c, d].all Char.isDigit
  | _ => false

def isLeap (y : Nat) : Bool :=
  (y % 4 == 0 && y % 100 != 0) || y % 400 == 0

def daysInMonth (y m : Nat) : Nat :=
  if m = 2 then (if isLeap y then 29 else 28)
  else if m = 4 ∨ m = 6 ∨ m = 9 ∨ m = 11 then 30
  else 31

/-- Calendar validity of `datetime.strptime(f"{date} {time}", "%Y-%m-%d %H:%M")`
for strings already matching the two regexes (datetime accepts years 1–9999). -/
def strptimeOk (date time : String) : Bool :=
  let y := digitsToNat (date.toList.take 4)
  let mo := digitsToNat ((date.toList.drop 5).take 2)
  let dy := digitsToNat (date.toList.drop 8)
  let hh := digitsToNat (time.toList.take 2)
  let mi := digitsToNat (time.toList.drop 3)
  decide (1 ≤ y) && decide (y ≤ 9999) && decide (1 ≤ mo) && decide (mo ≤ 12) &&
    decide (1 ≤ dy) && decide (dy ≤ daysInMonth y mo) && decide (hh ≤ 23) && decide (mi ≤ 59)

/-- Model of `_validate_date_time(date, time)`. -/
def _validate_date_time (date time : String) : Bool :=
  dateReOk date && timeReOk time && strptimeOk date time

/-! ### Record Store reading (`_read_rows`) -/

/-- Python `ln.split(",")` (the delimiter is a single character). -/
def splitComma (ln : String) : List String :=
  (ln.toList.splitOn ',').map (fun cs => ⟨cs⟩)

/-- Python `ln.strip() == ""`: the line holds nothing but whitespace. -/
def isBlank (ln : String) : Bool :=
  ln.toList.all Char.isWhitespace

/-- The loop body of `_read_rows`: skip blank lines, split the rest on commas. -/
def _read_rows_loop : List String → List (List String)
  | [] => []
  | ln :: rest =>
    if isBlank ln then _read_rows_loop rest
    else splitComma ln :: _read_rows_loop rest

/-- Model of `_read_rows(path)`: drop the header line, then keep every non-blank line,
split on the delimiter.  Input is the file's list of lines (newlines already
stripped); an empty file yields no rows. -/
def _read_rows (lines : List String) : List (List String) :=
  match lines with
  | [] => []
  | _ :: rest => _read_rows_loop rest

/-! ### Identity Allocator (`_next_id_from`) -/

/-- The `max_id` accumulator loop of `_next_id_from`: `int(r[0])`, a bare
`except: pass` swallowing both the missing-field and the parse failure. -/
def _max_id (rows : List (List String)) : Int :=
  rows.foldl
    (fun m r =>
      match r.head? with
      | none => m
      | some s =>
        match pyInt? s with
        | none => m
        | some v => max m v)
    0

/-- Model of `_next_id_from(path) = str(max_id + 1)` over the rows of the store. -/
def _next_id_from (rows : List (List String)) : String :=
  toString (_max_id rows + 1)

/-- Spec-side restatement of the identity contract: the maximum of the
parseable first fields (default 0), computed independently of the source's
accumulator loop. -/
def maxParsedId (rows : List (List String)) : Int :=
  (rows.filterMap (fun r => r.head?.bind pyInt?)).foldr max 0

/-! ### Typed records -/

/-- Row of `movies.csv`: movie_id,title,rating,duration,language,status. -/
structure Movie where
  id : String
  title : String
  rating : String
  duration : String
  language : String
  status : String
deriving DecidableEq

/-- Row of `auditoriums.csv`: aud_id,name. -/
structure Aud where
  id : String
  name : String
deriving DecidableEq

/-- Row of `showtimes.csv`: show_id,movie_id,aud_id,date,time,seats,base_price.
`seats` (index 5) is parsed with `int` at each use, so it is an `Int` here. -/
structure Show where
  id : String
  movieId : String
  audId : String
  date : String
  time : String
  seats : Int
  basePrice : String
deriving DecidableEq

/-- Row of `bookings.csv`: booking_id,customer_name,show_id,seats,status. -/
structure Booking where
  id : String
  customer : String
  showId : String
  seats : Int
  status : String
deriving DecidableEq

/-- Serialization of a `Show` back to its CSV row (as `add_show` writes it). -/
def serializeShow (s : Show) : List String :=
  [s.id, s.movieId, s.audId, s.date, s.time, toString s.seats, s.basePrice]

/-- Serialization of a `Booking` back to its CSV row. -/
def serializeBooking (b : Booking) : List String :=
  [b.id, b.customer, b.showId, toString b.seats, b.status]

/-- The persisted state the five core operations touch. -/
structure St where
  movies : List Movie
  auds : List Aud
  shows : List Show
  books : List Booking
deriving DecidableEq

/-! ### Loop helpers: first index search and indexed any -/

/-- The `for i, x in enumerate(l): if p(x): idx = i; break` idiom: first
matching index together with the element found there. -/
def enumFind {α : Type} (p : α → Bool) : List α → Option (Nat × α)
  | [] => none
  | x :: xs =>
    if p x then some (0, x)
    else (enumFind p xs).map (fun ix => (ix.1 + 1, ix.2))

/-- Indexed any: `any` with the element's index available to the predicate, counting from
`k` (the overlap check of `upd_show` skips one index). -/
def anyFrom {α : Type} (p : Nat → α → Bool) : Nat → List α → Bool
  | _, [] => false
  | k, x :: xs => p k x || anyFrom p (k + 1) xs

/-! ### Showtime Inventory operations -/

inductive AddShowRes
  | ok (sid : String)
  | badNumeric
  | badDateTime
  | badMovie
  | noAud
  | overlap
deriving DecidableEq

/-- Model of `add_show()`: parse seats/base price, validate date/time, require an
Active movie and an existing auditorium, reject an `(aud, date, time)`
overlap, then append with a fresh id.  Every failure leaves the store as is
(the Python code returns before writing). -/
def add_show (movies : List Movie) (auds : List Aud) (shows : List Show)
    (mid aid date time seats bp : String) : AddShowRes × List Show :=
  match pyInt? seats with
  | none => (.badNumeric, shows)
  | some seatsI =>
    if !pyFloatOk bp then (.badNumeric, shows)
    else if !_validate_date_time date time then (.badDateTime, shows)
    else if !(movies.any (fun m => m.id == mid && m.status == "Active")) then (.badMovie, shows)
    else if !(auds.any (fun a => a.id == aid)) then (.noAud, shows)
    else if shows.any (fun s => s.audId == aid && s.date == date && s.time == time) then
      (.overlap, shows)
    else
      (.ok (_next_id_from (shows.map serializeShow)),
        shows ++ [⟨_next_id_from (shows.map serializeShow), mid, aid, date, time, seatsI, bp⟩])

inductive UpdShowRes
  | ok
  | notFound
  | badNumeric
  | badDateTime
  | overlap
deriving DecidableEq

/-- Model of `upd_show()`: find the row by id first, then parse/validate the new
fields, run the overlap check over every other index, and overwrite the row
in place (the id is kept, the seats field is set directly to the new value). -/
def upd_show (shows : List Show) (sid mid aid date time seats bp : String) :
    UpdShowRes × List Show :=
  match enumFind (fun s => s.id == sid) shows with
  | none => (.notFound, shows)
  | some (idx, _s) =>
    match pyInt? seats with
    | none => (.badNumeric, shows)
    | some seatsI =>
      if !pyFloatOk bp then (.badNumeric, shows)
      else if !_validate_date_time date time then (.badDateTime, shows)
      else if anyFrom
          (fun k s => (k != idx) && (s.audId == aid && s.date == date && s.time == time))
          0 shows then
        (.overlap, shows)
      else (.ok, shows.set idx ⟨sid, mid, aid, date, time, seatsI, bp⟩)

/-! ### Booking Ledger operations -/

inductive BookRes
  | ok (bid : String)
  | badSeats
  | showNotFound
  | notEnough
  | badPayment
deriving DecidableEq

/-- Model of `_book_ticket_common(sid, cname, nseats)`: validate the seat-count string,
find the show, check capacity (`avail < nseats` rejects), run the payment
dialogue, then decrement the show's seats and append a `PAID` booking with a
fresh id.  No validation is applied to `cname` here. -/
def _book_ticket_common (shows : List Show) (books : List Booking)
    (sid cname nseats : String) (payOk : Bool) : BookRes × List Show × List Booking :=
  if !_ensure_positive_int nseats then (.badSeats, shows, books)
  else
    match enumFind (fun s => s.id == sid) shows with
    | none => (.showNotFound, shows, books)
    | some (idx, s) =>
      if s.seats < (digitsToNat nseats.toList : Nat) then (.notEnough, shows, books)
      else if !payOk then (.badPayment, shows, books)
      else
        (.ok (_next_id_from (books.map serializeBooking)),
          shows.set idx { s with seats := s.seats - (digitsToNat nseats.toList : Nat) },
          books ++ [⟨_next_id_from (books.map serializeBooking), cname, sid,
            (digitsToNat nseats.toList : Nat), "PAID"⟩])

/-- The `M`/`C`/other menu input of `_cancel_or_modify_common`. -/
inductive Choice
  | cancel
  | modify (newSeats : String)
  | other
deriving DecidableEq

inductive CmRes
  | cancelled
  | modified
  | notFound
  | forbidden
  | badSeats
  | showMissing
  | notEnough
  | badChoice
deriving DecidableEq

/-- Python `s.lower()`. -/
def lowerStr (s : String) : String :=
  ⟨s.toList.map Char.toLower⟩

/-- The ownership guard: with a requester present, the booking's customer name
must match case-insensitively (`books[bidx][1].lower() != owner_name.lower()`). -/
def ownerMismatch (owner : Option String) (b : Booking) : Bool :=
  match owner with
  | none => false
  | some o => lowerStr b.customer != lowerStr o

/-- Model of `_cancel_or_modify_common(bid, owner_name)`: find the booking, apply the
ownership guard, look the referenced show up, then cancel (restore seats when
the show exists — skip the restoration when it does not — and drop the
booking) or modify (validate the new count, require the show, reject when the
delta exceeds the remaining seats, rewrite both rows). -/
def _cancel_or_modify_common (books : List Booking) (shows : List Show)
    (bid : String) (owner : Option String) (choice : Choice) :
    CmRes × List Booking × List Show :=
  match enumFind (fun b => b.id == bid) books with
  | none => (.notFound, books, shows)
  | some (bidx, b) =>
    if ownerMismatch owner b then (.forbidden, books, shows)
    else
      match choice with
      | .cancel =>
        match enumFind (fun s => s.id == b.showId) shows with
        | some (sidx, s) =>
          (.cancelled, books.eraseIdx bidx,
            shows.set sidx { s with seats := s.seats + b.seats })
        | none => (.cancelled, books.eraseIdx bidx, shows)
      | .modify ns =>
        if !_ensure_positive_int ns then (.badSeats, books, shows)
        else
          match enumFind (fun s => s.id == b.showId) shows with
          | none => (.showMissing, books, shows)
          | some (sidx, s) =>
            if s.seats - (((digitsToNat ns.toList : Nat) : Int) - b.seats) < 0 then
              (.notEnough, books, shows)
            else
              (.modified, books.set bidx { b with seats := (digitsToNat ns.toList : Nat) },
                shows.set sidx
                  { s with seats := s.seats - (((digitsToNat ns.toList : Nat) : Int) - b.seats) })
      | .other => (.badChoice, books, shows)

/-! ### Operation sequences -/

/-- One invocation of a core operation, with all its interactive inputs. -/
inductive Op
  | addShow (mid aid date time seats bp : String)
  | updShow (sid mid aid date time seats bp : String)
  | book (sid cname nseats : String) (payOk : Bool)
  | cm (bid : String) (owner : Option String) (choice : Choice)
deriving DecidableEq

/-- Run one operation against the persisted state, keeping whatever stores it
wrote (a failing operation returns the stores unchanged). -/
def applyOp (st : St) : Op → St
  | .addShow mid aid date time seats bp =>
    { st with shows := (add_show st.movies st.auds st.shows mid aid date time seats bp).2 }
  | .updShow sid mid aid date time seats bp =>
    { st with shows := (upd_show st.shows sid mid aid date time seats bp).2 }
  | .book sid cname nseats payOk =>
    let r := _book_ticket_common st.shows st.books sid cname nseats payOk
    { st with shows := r.2.1, books := r.2.2 }
  | .cm bid owner choice =>
    let r := _cancel_or_modify_common st.books st.shows bid owner choice
    { st with books := r.2.1, shows := r.2.2 }

/-- Run a sequence of operations left to right. -/
def applyOps (st : St) (ops : List Op) : St :=
  ops.foldl applyOp st

/-- Booking Ledger operations (createBooking / modifyBooking / cancelBooking):
the `book` and `cm` constructors. -/
def isLedgerOp : Op → Bool
  | .book _ _ _ _ => true
  | .cm _ _ _ => true
  | _ => false

/-- The seats input of a showtime create/update either fails to parse or
parses to a nonnegative value.  Booking-ledger operations satisfy this
vacuously. -/
def seatInputOk : Op → Bool
  | .addShow _ _ _ _ seats _ =>
    match pyInt? seats with
    | some v => decide (0 ≤ v)
    | none => true
  | .updShow _ _ _ _ _ seats _ =>
    match pyInt? seats with
    | some v => decide (0 ≤ v)
    | none => true
  | _ => true

/-! ### Invariants -/

/-- Total seat count of the bookings referencing showtime id `sid`. -/
def refSum (books : List Booking) (sid : String) : Int :=
  (books.map (fun b => if b.showId = sid then b.seats else 0)).sum

/-- Seat-count conservation against a fixed per-showtime total `T` (the seat
total established at each showtime's creation, keyed by showtime id). -/
def ConservedWith (T : String → Int) (shows : List Show) (books : List Booking) : Prop :=
  ∀ sh ∈ shows, sh.seats + refSum books sh.id = T sh.id

/-- Every remaining-seat count and every booked seat count is nonnegative. -/
def NonNegSeats (st : St) : Prop :=
  (∀ sh ∈ st.shows, 0 ≤ sh.seats) ∧ (∀ b ∈ st.books, 0 ≤ b.seats)

/-- The `(auditoriumId, date, time)` triple of a showtime. -/
def tripleOf (s : Show) : String × String × String :=
  (s.audId, s.date, s.time)

/-- No two distinct showtime records share an `(auditoriumId, date, time)`
triple. -/
def TriplesDistinct (shows : List Show) : Prop :=
  (shows.map tripleOf).Nodup

/-! ### Generic list lemmas -/

lemma set_getElem_self {α : Type} : ∀ (l : List α) (i : Nat) (h : i < l.length),
    l.set i l[i] = l
  | _ :: _, 0, _ => rfl
  | a :: t, i + 1, h => by
    have := set_getElem_self t i (by simpa using h)
    simpa [List.set] using this

lemma map_set_self {α β : Type} {f : α → β} (l : List α) (i : Nat) (h : i < l.length)
    (v : α) (hv : f v = f l[i]) : (l.set i v).map f = l.map f := by
  have hlen : i < (l.map f).length := by simpa using h
  rw [List.map_set, hv]
  have : f l[i] = (l.map f)[i] := (List.getElem_map f).symm
  rw [this, set_getElem_self]

lemma mem_set_cases {α : Type} {l : List α} {i : Nat} {v x : α}
    (hx : x ∈ l.set i v) : x = v ∨ x ∈ l := by
  rcases List.mem_iff_getElem.1 hx with ⟨j, hj, hget⟩
  have hj' : j < l.length := by simpa using hj
  rw [List.getElem_set] at hget
  by_cases hij : i = j
  · simp [hij] at hget
    exact Or.inl hget.symm
  · simp [hij] at hget
    exact Or.inr (hget ▸ List.getElem_mem hj')

lemma nodup_map_getElem_ne {α β : Type} {f : α → β} {l : List α}
    (h : (l.map f).Nodup) {i j : Nat} (hi : i < l.length) (hj : j < l.length)
    (hij : i ≠ j) : f l[i] ≠ f l[j] := by
  intro heq
  have hi' : i < (l.map f).length := by simpa using hi
  have hj' : j < (l.map f).length := by simpa using hj
  have hg : (l.map f)[i] = (l.map f)[j] := by
    simpa [List.getElem_map] using heq
  exact hij (h.getElem_inj_iff.1 hg)

lemma nodup_set {α : Type} : ∀ {l : List α} {i : Nat} {v : α}, l.Nodup →
    (∀ j (_ : j < l.length), j ≠ i → l[j] ≠ v) → (l.set i v).Nodup := by
  intro l
  induction l with
  | nil => intro i v _ _; simp
  | cons a t ih =>
    intro i v hl hv
    rcases List.nodup_cons.1 hl with ⟨ha, ht⟩
    cases i with
    | zero =>
      refine List.nodup_cons.2 ⟨?_, ht⟩
      intro hvt
      rcases List.mem_iff_getElem.1 hvt with ⟨j, hj, hg⟩
      exact hv (j + 1) (by simpa using Nat.succ_lt_succ hj) (by simp) (by simpa using hg)
    | succ k =>
      refine List.nodup_cons.2 ⟨?_, ih ht ?_⟩
      · intro hmem
        rcases mem_set_cases hmem with h1 | h2
        · exact hv 0 (by simp) (by simp) (by simpa using h1)
        · exact ha h2
      · intro j hj hjk
        have := hv (j + 1) (by simpa using Nat.succ_lt_succ hj) (by simpa using hjk)
        simpa using this

/-! ### Lemmas on the loop helpers -/

lemma enumFind_cons {α : Type} (p : α → Bool) (a : α) (t : List α) :
    enumFind p (a :: t) =
      if p a then some (0, a) else (enumFind p t).map (fun ix => (ix.1 + 1, ix.2)) :=
  rfl

lemma enumFind_some {α : Type} {p : α → Bool} :
    ∀ {l : List α} {i : Nat} {x : α}, enumFind p l = some (i, x) →
      ∃ h : i < l.length, l[i] = x ∧ p x = true := by
  intro l
  induction l with
  | nil => intro i x h; simp [enumFind] at h
  | cons a t ih =>
    intro i x h
    rw [enumFind_cons] at h
    by_cases hpa : p a
    · rw [if_pos hpa] at h
      have h1 : ((0, a) : Nat × α) = (i, x) := Option.some.inj h
      have hi : i = 0 := (congrArg Prod.fst h1).symm
      have hx : a = x := congrArg Prod.snd h1
      subst hi
      subst hx
      exact ⟨by simp, by simp, hpa⟩
    · rw [if_neg hpa] at h
      rcases Option.map_eq_some'.1 h with ⟨⟨i', x'⟩, hfind, hpair⟩
      have hi : i = i' + 1 := (congrArg Prod.fst hpair).symm
      have hx : x = x' := (congrArg Prod.snd hpair).symm
      subst hi
      subst hx
      rcases ih hfind with ⟨hlt, hget, hp⟩
      exact ⟨by simpa using Nat.succ_lt_succ hlt, by simpa using hget, hp⟩

lemma enumFind_eq_none {α : Type} {p : α → Bool} :
    ∀ {l : List α}, enumFind p l = none ↔ ∀ x ∈ l, p x = false := by
  intro l
  induction l with
  | nil => simp [enumFind]
  | cons a t ih =>
    constructor
    · intro h x hx
      rw [enumFind_cons] at h
      by_cases hpa : p a
      · rw [if_pos hpa] at h
        exact absurd h (by simp)
      · rw [if_neg hpa] at h
        have ht : enumFind p t = none := by
          cases hh : enumFind p t with
          | none => rfl
          | some v => rw [hh] at h; simp at h
        rcases List.mem_cons.1 hx with rfl | hxt
        · simpa using hpa
        · exact ih.1 ht x hxt
    · intro h
      rw [enumFind_cons]
      have hpa : p a = false := h a (by simp)
      rw [if_neg (by simp [hpa])]
      rw [ih.2 (fun x hx => h x (List.mem_cons_of_mem a hx))]
      rfl

lemma anyFrom_cons {α : Type} (p : Nat → α → Bool) (k : Nat) (a : α) (t : List α) :
    anyFrom p k (a :: t) = (p k a || anyFrom p (k + 1) t) :=
  rfl

lemma anyFrom_false {α : Type} {p : Nat → α → Bool} :
    ∀ {l : List α} {k : Nat}, anyFrom p k l = false →
      ∀ j (_ : j < l.length), p (k + j) l[j] = false := by
  intro l
  induction l with
  | nil => intro k _ j hj; simp at hj
  | cons a t ih =>
    intro k h j hj
    rw [anyFrom_cons, Bool.or_eq_false_iff] at h
    cases j with
    | zero => simpa using h.1
    | succ m =>
      have hrec := ih h.2 m (by simpa using hj)
      have heq : k + 1 + m = k + (m + 1) := by omega
      rw [heq] at hrec
      simpa using hrec

/-! ### refSum lemmas -/

lemma refSum_nil (x : String) : refSum [] x = 0 := rfl

lemma refSum_cons (c : Booking) (t : List Booking) (x : String) :
    refSum (c :: t) x = (if c.showId = x then c.seats else 0) + refSum t x := by
  simp [refSum]

lemma refSum_append (books : List Booking) (b : Booking) (x : String) :
    refSum (books ++ [b]) x = refSum books x + (if b.showId = x then b.seats else 0) := by
  simp [refSum]

lemma refSum_set (x : String) : ∀ (books : List Booking) (i : Nat) (b : Booking)
    (_ : i < books.length),
    refSum (books.set i b) x =
      refSum books x - (if books[i].showId = x then books[i].seats else 0)
        + (if b.showId = x then b.seats else 0)
  | c :: t, 0, b, _ => by
    simp only [List.set, refSum_cons, List.getElem_cons_zero]
    ring
  | c :: t, i + 1, b, h => by
    have := refSum_set x t i b (by simpa using h)
    simp only [List.set, refSum_cons, List.getElem_cons_succ, this]
    ring

lemma refSum_eraseIdx (x : String) : ∀ (books : List Booking) (i : Nat)
    (_ : i < books.length),
    refSum (books.eraseIdx i) x =
      refSum books x - (if books[i].showId = x then books[i].seats else 0)
  | c :: t, 0, _ => by
    simp only [List.eraseIdx, refSum_cons, List.getElem_cons_zero]
    ring
  | c :: t, i + 1, h => by
    have := refSum_eraseIdx x t i (by simpa using h)
    simp only [List.eraseIdx, refSum_cons, List.getElem_cons_succ, this]
    ring

/-! ### Seat-count conservation: per-operation lemmas -/

lemma book_preserves (T : String → Int) (shows : List Show) (books : List Booking)
    (sid cname ns : String) (payOk : Bool)
    (hnd : (shows.map Show.id).Nodup)
    (hc : ConservedWith T shows books) :
    ConservedWith T (_book_ticket_common shows books sid cname ns payOk).2.1
        (_book_ticket_common shows books sid cname ns payOk).2.2 ∧
      (_book_ticket_common shows books sid cname ns payOk).2.1.map Show.id
        = shows.map Show.id := by
  unfold _book_ticket_common
  split
  · exact ⟨hc, rfl⟩
  · split
    · exact ⟨hc, rfl⟩
    · rename_i ix idx s hpat
      rcases enumFind_some hpat with ⟨hidx, hget, hp⟩
      have hsid : s.id = sid := eq_of_beq hp
      split
      · exact ⟨hc, rfl⟩
      · split
        · exact ⟨hc, rfl⟩
        · have e1 : (⟨_next_id_from (books.map serializeBooking), cname, sid,
              ((digitsToNat ns.toList : Nat) : Int), "PAID"⟩ : Booking).showId = sid := rfl
          have e2 : (⟨_next_id_from (books.map serializeBooking), cname, sid,
              ((digitsToNat ns.toList : Nat) : Int), "PAID"⟩ : Booking).seats
              = ((digitsToNat ns.toList : Nat) : Int) := rfl
          constructor
          · intro sh2 hmem
            rcases List.mem_iff_getElem.1 hmem with ⟨j, hj, hg⟩
            have hj' : j < shows.length := by simpa using hj
            rw [List.getElem_set] at hg
            rw [refSum_append, e1, e2]
            by_cases hij : idx = j
            · rw [if_pos hij] at hg
              subst hg
              have hcs := hc s (hget ▸ List.getElem_mem hidx)
              have e3 : ({ s with seats := s.seats - ((digitsToNat ns.toList : Nat) : Int) } :
                  Show).id = s.id := rfl
              have e4 : ({ s with seats := s.seats - ((digitsToNat ns.toList : Nat) : Int) } :
                  Show).seats = s.seats - ((digitsToNat ns.toList : Nat) : Int) := rfl
              rw [e3, e4, if_pos hsid.symm]
              omega
            · rw [if_neg hij] at hg
              subst hg
              have hcs := hc shows[j] (List.getElem_mem hj')
              have hne : Show.id shows[j] ≠ Show.id shows[idx] :=
                nodup_map_getElem_ne hnd hj' hidx (fun h => hij h.symm)
              rw [hget, hsid] at hne
              rw [if_neg (fun h => hne h.symm)]
              omega
          · exact map_set_self shows idx hidx _ (by rw [hget])

lemma cm_preserves (T : String → Int) (books : List Booking) (shows : List Show)
    (bid : String) (owner : Option String) (choice : Choice)
    (hnd : (shows.map Show.id).Nodup)
    (hc : ConservedWith T shows books) :
    ConservedWith T (_cancel_or_modify_common books shows bid owner choice).2.2
        (_cancel_or_modify_common books shows bid owner choice).2.1 ∧
      (_cancel_or_modify_common books shows bid owner choice).2.2.map Show.id
        = shows.map Show.id := by
  unfold _cancel_or_modify_common
  split
  · exact ⟨hc, rfl⟩
  · rename_i ob bidx b hbpat
    rcases enumFind_some hbpat with ⟨hbidx, hbget, hbp⟩
    split
    · exact ⟨hc, rfl⟩
    · split
      -- choice = cancel
      · split
        · rename_i sfound sidx s hspat
          rcases enumFind_some hspat with ⟨hsidx, hsget, hsp⟩
          have hsbid : s.id = b.showId := eq_of_beq hsp
          constructor
          · intro sh2 hmem
            rcases List.mem_iff_getElem.1 hmem with ⟨j, hj, hg⟩
            have hj' : j < shows.length := by simpa using hj
            rw [List.getElem_set] at hg
            rw [refSum_eraseIdx _ books bidx hbidx, hbget]
            by_cases hij : sidx = j
            · rw [if_pos hij] at hg
              subst hg
              have hcs := hc s (hsget ▸ List.getElem_mem hsidx)
              have e3 : ({ s with seats := s.seats + b.seats } : Show).id = s.id := rfl
              have e4 : ({ s with seats := s.seats + b.seats } : Show).seats
                  = s.seats + b.seats := rfl
              rw [e3, e4, if_pos hsbid.symm]
              omega
            · rw [if_neg hij] at hg
              subst hg
              have hcs := hc shows[j] (List.getElem_mem hj')
              have hne : Show.id shows[j] ≠ Show.id shows[sidx] :=
                nodup_map_getElem_ne hnd hj' hsidx (fun h => hij h.symm)
              rw [hsget, hsbid] at hne
              rw [if_neg (fun h => hne h.symm)]
              omega
          · exact map_set_self shows sidx hsidx _ (by rw [hsget])
        · rename_i sfound hsnone
          constructor
          · intro sh2 hmem
            have hne : sh2.id ≠ b.showId := by
              have := enumFind_eq_none.1 hsnone sh2 hmem
              exact fun h => by simp [h] at this
            rw [refSum_eraseIdx _ books bidx hbidx, hbget]
            rw [if_neg (fun h => hne h.symm)]
            have hcs := hc sh2 hmem
            omega
          · rfl
      -- choice = modify ns
      · split
        · exact ⟨hc, rfl⟩
        · split
          · exact ⟨hc, rfl⟩
          · rename_i ns hens sfound sidx s hspat
            rcases enumFind_some hspat with ⟨hsidx, hsget, hsp⟩
            have hsbid : s.id = b.showId := eq_of_beq hsp
            split
            · exact ⟨hc, rfl⟩
            · have e1 : ({ b with seats := ((digitsToNat ns.toList : Nat) : Int) } :
                  Booking).showId = b.showId := rfl
              have e2 : ({ b with seats := ((digitsToNat ns.toList : Nat) : Int) } :
                  Booking).seats = ((digitsToNat ns.toList : Nat) : Int) := rfl
              constructor
              · intro sh2 hmem
                rcases List.mem_iff_getElem.1 hmem with ⟨j, hj, hg⟩
                have hj' : j < shows.length := by simpa using hj
                rw [List.getElem_set] at hg
                rw [refSum_set _ books bidx _ hbidx, hbget, e1, e2]
                by_cases hij : sidx = j
                · rw [if_pos hij] at hg
                  subst hg
                  have hcs := hc s (hsget ▸ List.getElem_mem hsidx)
                  have e3 : ({ s with seats := s.seats -
                      (((digitsToNat ns.toList : Nat) : Int) - b.seats) } : Show).id = s.id := rfl
                  have e4 : ({ s with seats := s.seats -
                      (((digitsToNat ns.toList : Nat) : Int) - b.seats) } : Show).seats
                      = s.seats - (((digitsToNat ns.toList : Nat) : Int) - b.seats) := rfl
                  rw [e3, e4, if_pos hsbid.symm, if_pos hsbid.symm]
                  omega
                · rw [if_neg hij] at hg
                  subst hg
                  have hcs := hc shows[j] (List.getElem_mem hj')
                  have hne : Show.id shows[j] ≠ Show.id shows[sidx] :=
                    nodup_map_getElem_ne hnd hj' hsidx (fun h => hij h.symm)
                  rw [hsget, hsbid] at hne
                  rw [if_neg (fun h => hne h.symm), if_neg (fun h => hne h.symm)]
                  omega
              · exact map_set_self shows sidx hsidx _ (by rw [hsget])
      -- choice = other
      · exact ⟨hc, rfl⟩

instance (T : String → Int) (shows : List Show) (books : List Booking) :
    Decidable (ConservedWith T shows books) := by
  unfold ConservedWith
  exact List.decidableBAll _ _

instance (st : St) : Decidable (NonNegSeats st) := by
  unfold NonNegSeats
  exact instDecidableAnd

instance (shows : List Show) : Decidable (TriplesDistinct shows) := by
  unfold TriplesDistinct
  exact List.nodupDecidable _

lemma applyOp_ledger (T : String → Int) (st : St) (op : Op)
    (hop : isLedgerOp op = true)
    (hnd : (st.shows.map Show.id).Nodup)
    (hc : ConservedWith T st.shows st.books) :
    ConservedWith T (applyOp st op).shows (applyOp st op).books ∧
      (applyOp st op).shows.map Show.id = st.shows.map Show.id := by
  cases op with
  | addShow mid aid date time seats bp => simp [isLedgerOp] at hop
  | updShow sid mid aid date time seats bp => simp [isLedgerOp] at hop
  | book sid cname ns payOk =>
    exact book_preserves T st.shows st.books sid cname ns payOk hnd hc
  | cm bid owner choice =>
    exact cm_preserves T st.books st.shows bid owner choice hnd hc

/-- Typed-store core of C1: with pairwise-distinct showtime ids, the typed
booking-ledger operations preserve per-showtime seat conservation. -/
lemma applyOps_ledger_conserved (T : String → Int) (st : St) (ops : List Op)
    (hops : ∀ op ∈ ops, isLedgerOp op = true)
    (hnd : (st.shows.map Show.id).Nodup)
    (hc : ConservedWith T st.shows st.books) :
    ConservedWith T (applyOps st ops).shows (applyOps st ops).books := by
  induction ops generalizing st with
  | nil => simpa [applyOps] using hc
  | cons op rest ih =>
    have h1 := applyOp_ledger T st op (hops op (by simp)) hnd hc
    have hnd2 : ((applyOp st op).shows.map Show.id).Nodup := by
      rw [h1.2]; exact hnd
    have hstep : applyOps st (op :: rest) = applyOps (applyOp st op) rest := rfl
    rw [hstep]
    exact ih (applyOp st op) (fun o ho => hops o (List.mem_cons_of_mem _ ho)) hnd2 h1.1

/-! ### Nonnegativity: per-operation lemmas -/

lemma seatInputOk_addShow {mid aid date time seats bp : String}
    (h : seatInputOk (.addShow mid aid date time seats bp) = true) :
    ∀ v, pyInt? seats = some v → 0 ≤ v := by
  intro v hv
  simp only [seatInputOk] at h
  rw [hv] at h
  simpa using h

lemma seatInputOk_updShow {sid mid aid date time seats bp : String}
    (h : seatInputOk (.updShow sid mid aid date time seats bp) = true) :
    ∀ v, pyInt? seats = some v → 0 ≤ v := by
  intro v hv
  simp only [seatInputOk] at h
  rw [hv] at h
  simpa using h

lemma add_show_nonneg (movies : List Movie) (auds : List Aud) (shows : List Show)
    (mid aid date time seats bp : String)
    (hseats : ∀ v, pyInt? seats = some v → 0 ≤ v)
    (h1 : ∀ sh ∈ shows, 0 ≤ sh.seats) :
    ∀ sh ∈ (add_show movies auds shows mid aid date time seats bp).2, 0 ≤ sh.seats := by
  unfold add_show
  split
  · exact h1
  · rename_i seatsI hpat
    split
    · exact h1
    · split
      · exact h1
      · split
        · exact h1
        · split
          · exact h1
          · split
            · exact h1
            · intro sh hmem
              rcases List.mem_append.1 hmem with hold | hnew
              · exact h1 sh hold
              · rw [List.mem_singleton.1 hnew]
                exact hseats seatsI hpat

lemma upd_show_nonneg (shows : List Show) (sid mid aid date time seats bp : String)
    (hseats : ∀ v, pyInt? seats = some v → 0 ≤ v)
    (h1 : ∀ sh ∈ shows, 0 ≤ sh.seats) :
    ∀ sh ∈ (upd_show shows sid mid aid date time seats bp).2, 0 ≤ sh.seats := by
  unfold upd_show
  split
  · exact h1
  · rename_i ix idx s hpat
    split
    · exact h1
    · rename_i seatsI hseq
      split
      · exact h1
      · split
        · exact h1
        · split
          · exact h1
          · intro sh hmem
            rcases mem_set_cases hmem with hv | hold
            · rw [hv]
              exact hseats seatsI hseq
            · exact h1 sh hold

lemma book_nonneg (shows : List Show) (books : List Booking)
    (sid cname ns : String) (payOk : Bool)
    (h1 : ∀ sh ∈ shows, 0 ≤ sh.seats) (h2 : ∀ b ∈ books, 0 ≤ b.seats) :
    (∀ sh ∈ (_book_ticket_common shows books sid cname ns payOk).2.1, 0 ≤ sh.seats) ∧
      (∀ b ∈ (_book_ticket_common shows books sid cname ns payOk).2.2, 0 ≤ b.seats) := by
  unfold _book_ticket_common
  split
  · exact ⟨h1, h2⟩
  · split
    · exact ⟨h1, h2⟩
    · rename_i ix idx s hpat
      rcases enumFind_some hpat with ⟨hidx, hget, hp⟩
      split
      · exact ⟨h1, h2⟩
      · split
        · exact ⟨h1, h2⟩
        · rename_i hav hpay
          constructor
          · intro sh hmem
            rcases mem_set_cases hmem with hv | hold
            · rw [hv]
              show 0 ≤ s.seats - ((digitsToNat ns.toList : Nat) : Int)
              omega
            · exact h1 sh hold
          · intro b hmem
            rcases List.mem_append.1 hmem with hold | hnew
            · exact h2 b hold
            · rw [List.mem_singleton.1 hnew]
              show (0 : Int) ≤ ((digitsToNat ns.toList : Nat) : Int)
              omega

lemma cm_nonneg (books : List Booking) (shows : List Show)
    (bid : String) (owner : Option String) (choice : Choice)
    (h1 : ∀ sh ∈ shows, 0 ≤ sh.seats) (h2 : ∀ b ∈ books, 0 ≤ b.seats) :
    (∀ sh ∈ (_cancel_or_modify_common books shows bid owner choice).2.2, 0 ≤ sh.seats) ∧
      (∀ b ∈ (_cancel_or_modify_common books shows bid owner choice).2.1, 0 ≤ b.seats) := by
  unfold _cancel_or_modify_common
  split
  · exact ⟨h1, h2⟩
  · rename_i ob bidx b hbpat
    rcases enumFind_some hbpat with ⟨hbidx, hbget, hbp⟩
    have hbmem : b ∈ books := hbget ▸ List.getElem_mem hbidx
    split
    · exact ⟨h1, h2⟩
    · split
      · split
        · rename_i sfound sidx s hspat
          rcases enumFind_some hspat with ⟨hsidx, hsget, hsp⟩
          have hsmem : s ∈ shows := hsget ▸ List.getElem_mem hsidx
          constructor
          · intro sh hmem
            rcases mem_set_cases hmem with hv | hold
            · rw [hv]
              show 0 ≤ s.seats + b.seats
              have := h1 s hsmem
              have := h2 b hbmem
              omega
            · exact h1 sh hold
          · intro b2 hmem
            exact h2 b2 (List.eraseIdx_subset books bidx hmem)
        · exact ⟨h1, fun b2 hmem => h2 b2 (List.eraseIdx_subset books bidx hmem)⟩
      · split
        · exact ⟨h1, h2⟩
        · split
          · exact ⟨h1, h2⟩
          · rename_i ns hens sfound sidx s hspat
            rcases enumFind_some hspat with ⟨hsidx, hsget, hsp⟩
            split
            · exact ⟨h1, h2⟩
            · rename_i hcap
              constructor
              · intro sh hmem
                rcases mem_set_cases hmem with hv | hold
                · rw [hv]
                  show 0 ≤ s.seats - (((digitsToNat ns.toList : Nat) : Int) - b.seats)
                  omega
                · exact h1 sh hold
              · intro b2 hmem
                rcases mem_set_cases hmem with hv | hold
                · rw [hv]
                  show (0 : Int) ≤ ((digitsToNat ns.toList : Nat) : Int)
                  omega
                · exact h2 b2 hold
      · exact ⟨h1, h2⟩

lemma applyOp_nonneg (st : St) (op : Op) (hop : seatInputOk op = true)
    (h : NonNegSeats st) : NonNegSeats (applyOp st op) := by
  rcases h with ⟨h1, h2⟩
  cases op with
  | addShow mid aid date time seats bp =>
    exact ⟨add_show_nonneg st.movies st.auds st.shows mid aid date time seats bp
      (seatInputOk_addShow hop) h1, h2⟩
  | updShow sid mid aid date time seats bp =>
    exact ⟨upd_show_nonneg st.shows sid mid aid date time seats bp
      (seatInputOk_updShow hop) h1, h2⟩
  | book sid cname ns payOk =>
    exact book_nonneg st.shows st.books sid cname ns payOk h1 h2
  | cm bid owner choice =>
    exact cm_nonneg st.books st.shows bid owner choice h1 h2

/-- Typed-store core of C2: the five typed operations keep every seat count
nonnegative when each parsed seats input is nonnegative. -/
lemma applyOps_nonneg (st : St) (ops : List Op)
    (hops : ∀ op ∈ ops, seatInputOk op = true)
    (h : NonNegSeats st) : NonNegSeats (applyOps st ops) := by
  induction ops generalizing st with
  | nil => simpa [applyOps] using h
  | cons op rest ih =>
    have h1 := applyOp_nonneg st op (hops op (by simp)) h
    have hstep : applyOps st (op :: rest) = applyOps (applyOp st op) rest := rfl
    rw [hstep]
    exact ih (applyOp st op) (fun o ho => hops o (List.mem_cons_of_mem _ ho)) h1

/-! ### Auditorium-slot uniqueness -/

lemma add_show_triples (movies : List Movie) (auds : List Aud) (shows : List Show)
    (mid aid date time seats bp : String) (h : TriplesDistinct shows) :
    TriplesDistinct (add_show movies auds shows mid aid date time seats bp).2 := by
  unfold add_show
  split
  · exact h
  · rename_i seatsI hpat
    split
    · exact h
    · split
      · exact h
      · split
        · exact h
        · split
          · exact h
          · split
            · exact h
            · rename_i hov
              have hov' : (shows.any
                  (fun s => s.audId == aid && s.date == date && s.time == time)) = false := by
                revert hov
                cases shows.any (fun s => s.audId == aid && s.date == date && s.time == time) <;>
                  simp
              unfold TriplesDistinct
              rw [List.map_append]
              refine List.nodup_append.2 ⟨h, by simp, ?_⟩
              intro x hx hmem
              have hxt : x = ((aid, date, time) : String × String × String) := by
                simpa [tripleOf] using hmem
              rcases List.mem_map.1 hx with ⟨s, hs, hts⟩
              have := List.any_eq_false.1 hov' s hs
              rw [hxt] at hts
              have h1 : s.audId = aid := congrArg (fun t => t.1) hts
              have h2 : s.date = date := congrArg (fun t => t.2.1) hts
              have h3 : s.time = time := congrArg (fun t => t.2.2) hts
              simp [h1, h2, h3] at this

lemma upd_show_triples (shows : List Show) (sid mid aid date time seats bp : String)
    (h : TriplesDistinct shows) :
    TriplesDistinct (upd_show shows sid mid aid date time seats bp).2 := by
  unfold upd_show
  split
  · exact h
  · rename_i ix idx s hpat
    rcases enumFind_some hpat with ⟨hidx, hget, hp⟩
    split
    · exact h
    · rename_i seatsI hseq
      split
      · exact h
      · split
        · exact h
        · split
          · exact h
          · rename_i hov
            have hov' : anyFrom
                (fun k s2 => (k != idx) && (s2.audId == aid && s2.date == date && s2.time == time))
                0 shows = false := by
              revert hov
              cases anyFrom
                  (fun k s2 => (k != idx) &&
                    (s2.audId == aid && s2.date == date && s2.time == time)) 0 shows <;> simp
            unfold TriplesDistinct
            rw [List.map_set]
            apply nodup_set h
            intro j hj hji
            have hj' : j < shows.length := by simpa using hj
            have hfj := anyFrom_false hov' j hj'
            rw [Nat.zero_add] at hfj
            have hji' : (j != idx) = true := by
              simpa using hji
            rw [hji'] at hfj
            simp only [Bool.true_and] at hfj
            rw [List.getElem_map]
            intro heq
            have ht : tripleOf shows[j] = (aid, date, time) := by
              simpa [tripleOf] using heq
            have h1 : shows[j].audId = aid := congrArg (fun t => t.1) ht
            have h2 : shows[j].date = date := congrArg (fun t => t.2.1) ht
            have h3 : shows[j].time = time := congrArg (fun t => t.2.2) ht
            simp [h1, h2, h3] at hfj

lemma book_triples_map (shows : List Show) (books : List Booking)
    (sid cname ns : String) (payOk : Bool) :
    (_book_ticket_common shows books sid cname ns payOk).2.1.map tripleOf
      = shows.map tripleOf := by
  unfold _book_ticket_common
  split
  · rfl
  · split
    · rfl
    · rename_i ix idx s hpat
      rcases enumFind_some hpat with ⟨hidx, hget, hp⟩
      split
      · rfl
      · split
        · rfl
        · exact map_set_self shows idx hidx _ (by rw [hget]; rfl)

lemma cm_triples_map (books : List Booking) (shows : List Show)
    (bid : String) (owner : Option String) (choice : Choice) :
    (_cancel_or_modify_common books shows bid owner choice).2.2.map tripleOf
      = shows.map tripleOf := by
  unfold _cancel_or_modify_common
  split
  · rfl
  · rename_i ob bidx b hbpat
    split
    · rfl
    · split
      · split
        · rename_i sfound sidx s hspat
          rcases enumFind_some hspat with ⟨hsidx, hsget, hsp⟩
          exact map_set_self shows sidx hsidx _ (by rw [hsget]; rfl)
        · rfl
      · split
        · rfl
        · split
          · rfl
          · rename_i ns hens sfound sidx s hspat
            rcases enumFind_some hspat with ⟨hsidx, hsget, hsp⟩
            split
            · rfl
            · exact map_set_self shows sidx hsidx _ (by rw [hsget]; rfl)
      · rfl

lemma applyOp_triples (st : St) (op : Op) (h : TriplesDistinct st.shows) :
    TriplesDistinct (applyOp st op).shows := by
  cases op with
  | addShow mid aid date time seats bp =>
    exact add_show_triples st.movies st.auds st.shows mid aid date time seats bp h
  | updShow sid mid aid date time seats bp =>
    exact upd_show_triples st.shows sid mid aid date time seats bp h
  | book sid cname ns payOk =>
    unfold TriplesDistinct
    rw [show (applyOp st (.book sid cname ns payOk)).shows
      = (_book_ticket_common st.shows st.books sid cname ns payOk).2.1 from rfl]
    rw [book_triples_map]
    exact h
  | cm bid owner choice =>
    unfold TriplesDistinct
    rw [show (applyOp st (.cm bid owner choice)).shows
      = (_cancel_or_modify_common st.books st.shows bid owner choice).2.2 from rfl]
    rw [cm_triples_map]
    exact h

/-- Typed-store core of C3: the typed operations preserve distinctness of the
`(auditoriumId, date, time)` triples. -/
lemma applyOps_triples (st : St) (ops : List Op) (h : TriplesDistinct st.shows) :
    TriplesDistinct (applyOps st ops).shows := by
  induction ops generalizing st with
  | nil => simpa [applyOps] using h
  | cons op rest ih =>
    have hstep : applyOps st (op :: rest) = applyOps (applyOp st op) rest := rfl
    rw [hstep]
    exact ih (applyOp st op) (applyOp_triples st op h)

/-- The overlap rejection of `add_show`: when movie/auditorium/date/time/price
checks pass and an existing showtime has the requested triple, the create
fails with the overlap error and the store is unchanged. -/
lemma add_show_overlap_reject (movies : List Movie) (auds : List Aud) (shows : List Show)
    (mid aid date time seats bp : String) (v : Int)
    (hpv : pyInt? seats = some v) (hbp : pyFloatOk bp = true)
    (hdt : _validate_date_time date time = true)
    (hmov : movies.any (fun m => m.id == mid && m.status == "Active") = true)
    (haud : auds.any (fun a => a.id == aid) = true)
    (hov : shows.any (fun s => s.audId == aid && s.date == date && s.time == time) = true) :
    add_show movies auds shows mid aid date time seats bp = (.overlap, shows) := by
  unfold add_show
  rw [hpv]
  simp [hbp, hdt, hmov, haud, hov]

/-- The overlap rejection of `upd_show`: the same check excluding only the
record being updated, failing with the store unchanged. -/
lemma upd_show_overlap_reject (shows : List Show) (sid mid aid date time seats bp : String)
    (idx : Nat) (s : Show) (v : Int)
    (hfind : enumFind (fun s2 => s2.id == sid) shows = some (idx, s))
    (hpv : pyInt? seats = some v) (hbp : pyFloatOk bp = true)
    (hdt : _validate_date_time date time = true)
    (hov : anyFrom (fun k s2 => (k != idx) &&
      (s2.audId == aid && s2.date == date && s2.time == time)) 0 shows = true) :
    upd_show shows sid mid aid date time seats bp = (.overlap, shows) := by
  unfold upd_show
  rw [hfind, hpv]
  simp [hbp, hdt, hov]

/-! ### createShowtime validation (C4) -/

/-- Counterexample to C4 as stated: the seats input "0" passes `int()` parsing
and `add_show` appends a showtime with remainingSeats 0 — there is no
`seatTotal > 0` (or `basePrice >= 0`) check in the code. -/
theorem c4_counterexample :
    add_show [⟨"1", "T", "PG", "120", "EN", "Active"⟩] [⟨"A1", "Main"⟩] []
      "1" "A1" "2025-01-01" "10:00" "0" "5"
      = (.ok "1", [⟨"1", "1", "A1", "2025-01-01", "10:00", 0, "5"⟩]) := by
  decide

/-- Claim C4 (amended): createShowtime validates only that seatTotal parses as
an integer and basePrice parses as a decimal number; either parse failure
fails with the numeric ValidationError and appends nothing, and on success the
new showtime is appended with remainingSeats equal to the parsed seatTotal
(zero and negative values included). -/
theorem c4_add_show_validation :
    (∀ (movies : List Movie) (auds : List Aud) (shows : List Show)
        (mid aid date time seats bp : String),
      pyInt? seats = none →
      add_show movies auds shows mid aid date time seats bp = (.badNumeric, shows)) ∧
    (∀ (movies : List Movie) (auds : List Aud) (shows : List Show)
        (mid aid date time seats bp : String),
      pyFloatOk bp = false →
      add_show movies auds shows mid aid date time seats bp = (.badNumeric, shows)) ∧
    (∀ (movies : List Movie) (auds : List Aud) (shows : List Show)
        (mid aid date time seats bp : String) (v : Int) (sid : String),
      pyInt? seats = some v →
      (add_show movies auds shows mid aid date time seats bp).1 = .ok sid →
      (add_show movies auds shows mid aid date time seats bp).2
        = shows ++ [⟨sid, mid, aid, date, time, v, bp⟩]) := by
  refine ⟨?_, ?_, ?_⟩
  · intro movies auds shows mid aid date time seats bp hpv
    unfold add_show
    rw [hpv]
  · intro movies auds shows mid aid date time seats bp hbp
    unfold add_show
    cases hpv : pyInt? seats with
    | none => rfl
    | some v => simp [hbp]
  · intro movies auds shows mid aid date time seats bp v sid hpv hok
    unfold add_show at hok ⊢
    rw [hpv] at hok ⊢
    split_ifs at hok ⊢ with h1 h2 h3 h4 h5
    all_goals simp_all

/-- Witness for C4 (amended): an unparseable seats input and an unparseable
base price are both rejected with nothing appended, and a parseable pair is
appended with remainingSeats equal to the parsed value. -/
theorem c4_add_show_validation_witness :
    add_show [] [] [⟨"1", "1", "A1", "2025-01-01", "10:00", 5, "9"⟩]
      "1" "A1" "2025-01-01" "10:00" "abc" "9"
      = (.badNumeric, [⟨"1", "1", "A1", "2025-01-01", "10:00", 5, "9"⟩]) ∧
    add_show [] [] [⟨"1", "1", "A1", "2025-01-01", "10:00", 5, "9"⟩]
      "1" "A1" "2025-01-01" "10:00" "5" "x"
      = (.badNumeric, [⟨"1", "1", "A1", "2025-01-01", "10:00", 5, "9"⟩]) ∧
    (add_show [⟨"1", "T", "PG", "120", "EN", "Active"⟩] [⟨"A1", "Main"⟩] []
      "1" "A1" "2025-01-01" "10:00" "50" "9").2
      = [] ++ [⟨"1", "1", "A1", "2025-01-01", "10:00", 50, "9"⟩] :=
  ⟨c4_add_show_validation.1 [] [] [⟨"1", "1", "A1", "2025-01-01", "10:00", 5, "9"⟩]
      "1" "A1" "2025-01-01" "10:00" "abc" "9" (by decide),
    c4_add_show_validation.2.1 [] [] [⟨"1", "1", "A1", "2025-01-01", "10:00", 5, "9"⟩]
      "1" "A1" "2025-01-01" "10:00" "5" "x" (by decide),
    c4_add_show_validation.2.2 [⟨"1", "T", "PG", "120", "EN", "Active"⟩] [⟨"A1", "Main"⟩] []
      "1" "A1" "2025-01-01" "10:00" "50" "9" 50 "1" (by decide) (by decide)⟩

/-! ### createBooking input validation (C5) -/

/-- Counterexample to C5 as stated: an empty customerName is accepted —
`_book_ticket_common` applies no validation to the name, decrements the seats
and appends a booking whose customer field is the empty string. -/
theorem c5_counterexample :
    _book_ticket_common [⟨"1", "1", "A1", "2025-01-01", "10:00", 5, "9"⟩] [] "1" "" "5" true
      = (.ok "1", [⟨"1", "1", "A1", "2025-01-01", "10:00", 0, "9"⟩],
        [⟨"1", "", "1", 5, "PAID"⟩]) := by
  decide

/-- Claim C5 (amended): createBooking validates only the seatCount input (a
positive all-digit string); a failing seatCount is rejected with no store
changed, while the customerName is not validated at all — for any name
(empty or containing the field separator included) a booking carrying that
exact name is appended whenever the showtime exists, capacity suffices and
payment completes. -/
theorem c5_book_validation :
    (∀ (shows : List Show) (books : List Booking) (sid cname ns : String) (payOk : Bool),
      _ensure_positive_int ns = false →
      _book_ticket_common shows books sid cname ns payOk = (.badSeats, shows, books)) ∧
    (∀ (shows : List Show) (books : List Booking) (sid cname ns : String)
        (idx : Nat) (s : Show),
      _ensure_positive_int ns = true →
      enumFind (fun s2 => s2.id == sid) shows = some (idx, s) →
      ¬ s.seats < ((digitsToNat ns.toList : Nat) : Int) →
      _book_ticket_common shows books sid cname ns true
        = (.ok (_next_id_from (books.map serializeBooking)),
          shows.set idx { s with seats := s.seats - ((digitsToNat ns.toList : Nat) : Int) },
          books ++ [⟨_next_id_from (books.map serializeBooking), cname, sid,
            ((digitsToNat ns.toList : Nat) : Int), "PAID"⟩])) := by
  constructor
  · intro shows books sid cname ns payOk hens
    unfold _book_ticket_common
    simp [hens]
  · intro shows books sid cname ns idx s hens hfind hcap
    unfold _book_ticket_common
    simp [hens, hfind, hcap]
    exact not_lt.1 hcap

/-- Witness for C5 (amended): the non-digit seat input "5x" is rejected with
nothing changed, while the separator-carrying name "a,b" is written into the
appended booking verbatim. -/
theorem c5_book_validation_witness :
    _book_ticket_common [⟨"1", "1", "A1", "2025-01-01", "10:00", 5, "9"⟩] [] "1" "bob" "5x" true
      = (.badSeats, [⟨"1", "1", "A1", "2025-01-01", "10:00", 5, "9"⟩], []) ∧
    _book_ticket_common [⟨"1", "1", "A1", "2025-01-01", "10:00", 5, "9"⟩] [] "1" "a,b" "2" true
      = (.ok "1", [⟨"1", "1", "A1", "2025-01-01", "10:00", 5, "9"⟩].set 0
          { (⟨"1", "1", "A1", "2025-01-01", "10:00", 5, "9"⟩ : Show) with
            seats := (5 : Int) - ((digitsToNat "2".toList : Nat) : Int) },
        [] ++ [⟨"1", "a,b", "1", ((digitsToNat "2".toList : Nat) : Int), "PAID"⟩]) :=
  ⟨c5_book_validation.1 [⟨"1", "1", "A1", "2025-01-01", "10:00", 5, "9"⟩] [] "1" "bob" "5x"
      true (by decide),
    c5_book_validation.2 [⟨"1", "1", "A1", "2025-01-01", "10:00", 5, "9"⟩] [] "1" "a,b" "2"
      0 ⟨"1", "1", "A1", "2025-01-01", "10:00", 5, "9"⟩ (by decide) (by decide) (by decide)⟩

/-! ### Tolerant store load (C6) -/

/-- Counterexample to C6 as stated: against the bookings schema (5 fields),
the 2-field row "9,alice" is not skipped — `_read_rows` returns it; only
blank lines are filtered, field counts are never checked. -/
theorem c6_counterexample :
    _read_rows ["booking_id,customer_name,show_id,seats,status", "9,alice"]
      = [["9", "alice"]] ∧ (["9", "alice"] : List (String)).length ≠ 5 := by
  decide

lemma read_rows_loop_eq : ∀ ls : List String,
    _read_rows_loop ls = (ls.filter (fun ln => !isBlank ln)).map splitComma := by
  intro ls
  induction ls with
  | nil => rfl
  | cons ln rest ih =>
    by_cases hb : isBlank ln
    · simp [_read_rows_loop, hb, ih]
    · simp [_read_rows_loop, hb, ih]

/-- Claim C6 (amended): loadAll never fails and skips only blank rows: it
returns, in their original order, exactly the non-blank data lines split on
the delimiter, whatever their field count (well-formed rows are never
dropped; field counts are not checked — callers filter short rows where they
care). -/
theorem c6_read_rows_tolerant :
    (∀ lines : List String,
      _read_rows lines = ((lines.drop 1).filter (fun ln => !isBlank ln)).map splitComma) ∧
    (∀ (lines : List String) (ln : String), ln ∈ lines.drop 1 → isBlank ln = false →
      splitComma ln ∈ _read_rows lines) := by
  have hchar : ∀ lines : List String,
      _read_rows lines = ((lines.drop 1).filter (fun ln => !isBlank ln)).map splitComma := by
    intro lines
    cases lines with
    | nil => rfl
    | cons hd rest => simpa [_read_rows] using read_rows_loop_eq rest
  refine ⟨hchar, ?_⟩
  intro lines ln hmem hnb
  rw [hchar]
  exact List.mem_map_of_mem splitComma (List.mem_filter.2 ⟨hmem, by simp [hnb]⟩)

/-- Witness for C6 (amended): a well-formed booking row following a malformed
one is still loaded. -/
theorem c6_read_rows_tolerant_witness :
    splitComma "1,bob,2,3,PAID" ∈
      _read_rows ["booking_id,customer_name,show_id,seats,status", "9,alice", "1,bob,2,3,PAID"] :=
  c6_read_rows_tolerant.2
    ["booking_id,customer_name,show_id,seats,status", "9,alice", "1,bob,2,3,PAID"]
    "1,bob,2,3,PAID" (by decide) (by decide)


/-! ### Orphan-tolerant cancel (C7) -/

/-- Claim C7: for a booking whose referenced showtime is absent from the
showtime store, cancel still removes the booking record and leaves the
showtime store unchanged (the restoration step is skipped); when the showtime
exists, cancel adds the booking's seatCount back to that showtime's
remainingSeats and removes the booking record. -/
theorem c7_orphan_cancel :
    (∀ (books : List Booking) (shows : List Show) (bid : String)
        (owner : Option String) (bidx : Nat) (b : Booking),
      enumFind (fun b2 => b2.id == bid) books = some (bidx, b) →
      ownerMismatch owner b = false →
      (∀ s ∈ shows, (s.id == b.showId) = false) →
      _cancel_or_modify_common books shows bid owner .cancel
        = (.cancelled, books.eraseIdx bidx, shows)) ∧
    (∀ (books : List Booking) (shows : List Show) (bid : String)
        (owner : Option String) (bidx sidx : Nat) (b : Booking) (s : Show),
      enumFind (fun b2 => b2.id == bid) books = some (bidx, b) →
      ownerMismatch owner b = false →
      enumFind (fun s2 => s2.id == b.showId) shows = some (sidx, s) →
      _cancel_or_modify_common books shows bid owner .cancel
        = (.cancelled, books.eraseIdx bidx,
          shows.set sidx { s with seats := s.seats + b.seats })) := by
  constructor
  · intro books shows bid owner bidx b hbfind hown habs
    unfold _cancel_or_modify_common
    simp [hbfind, hown, enumFind_eq_none.2 habs]
  · intro books shows bid owner bidx sidx b s hbfind hown hsfind
    unfold _cancel_or_modify_common
    simp [hbfind, hown, hsfind]

/-- Witness for C7: cancelling an orphaned booking removes it and leaves the
showtime store untouched; cancelling a live one restores the seats. -/
theorem c7_orphan_cancel_witness :
    _cancel_or_modify_common [⟨"7", "alice", "9", 2, "PAID"⟩]
      [⟨"1", "1", "A1", "2025-01-01", "10:00", 3, "9"⟩] "7" (some "ALICE") .cancel
      = (.cancelled, [⟨"7", "alice", "9", 2, "PAID"⟩].eraseIdx 0,
        [⟨"1", "1", "A1", "2025-01-01", "10:00", 3, "9"⟩]) ∧
    _cancel_or_modify_common [⟨"7", "alice", "1", 2, "PAID"⟩]
      [⟨"1", "1", "A1", "2025-01-01", "10:00", 3, "9"⟩] "7" none .cancel
      = (.cancelled, [⟨"7", "alice", "1", 2, "PAID"⟩].eraseIdx 0,
        [⟨"1", "1", "A1", "2025-01-01", "10:00", 3, "9"⟩].set 0
          { (⟨"1", "1", "A1", "2025-01-01", "10:00", 3, "9"⟩ : Show) with
            seats := (3 : Int) + 2 }) :=
  ⟨c7_orphan_cancel.1 [⟨"7", "alice", "9", 2, "PAID"⟩]
      [⟨"1", "1", "A1", "2025-01-01", "10:00", 3, "9"⟩] "7" (some "ALICE") 0
      ⟨"7", "alice", "9", 2, "PAID"⟩ (by decide) (by decide) (by decide),
    c7_orphan_cancel.2 [⟨"7", "alice", "1", 2, "PAID"⟩]
      [⟨"1", "1", "A1", "2025-01-01", "10:00", 3, "9"⟩] "7" none 0 0
      ⟨"7", "alice", "1", 2, "PAID"⟩ ⟨"1", "1", "A1", "2025-01-01", "10:00", 3, "9"⟩
      (by decide) (by decide) (by decide)⟩

/-! ### Cancel idempotence (C8) -/

lemma enumFind_erase_none {α : Type} {p : α → Bool} :
    ∀ {l : List α} {i : Nat} {x : α}, enumFind p l = some (i, x) →
      (l.filter p).length ≤ 1 → ∀ y ∈ l.eraseIdx i, p y = false := by
  intro l
  induction l with
  | nil => intro i x h; simp [enumFind] at h
  | cons a t ih =>
    intro i x h hcount y hy
    rw [enumFind_cons] at h
    by_cases hpa : p a
    · rw [if_pos hpa] at h
      have hi : i = 0 := (congrArg Prod.fst (Option.some.inj h)).symm
      subst hi
      have hcount' : (t.filter p).length = 0 := by
        rw [List.filter_cons_of_pos hpa] at hcount
        simpa using hcount
      have hnil : t.filter p = [] := List.length_eq_zero.1 hcount'
      have hall := List.filter_eq_nil.1 hnil
      have hyt : y ∈ t := by simpa [List.eraseIdx] using hy
      exact Bool.not_eq_true (p y) ▸ by simpa using hall y hyt
    · rw [if_neg hpa] at h
      rcases Option.map_eq_some'.1 h with ⟨⟨i2, x2⟩, hfind, hpair⟩
      have hi : i = i2 + 1 := (congrArg Prod.fst hpair).symm
      subst hi
      have hy' : y ∈ a :: t.eraseIdx i2 := by simpa [List.eraseIdx] using hy
      rcases List.mem_cons.1 hy' with rfl | hyt
      · simpa using hpa
      · have hcount' : (t.filter p).length ≤ 1 := by
          rw [List.filter_cons_of_neg hpa] at hcount
          exact hcount
        exact ih hfind hcount' y hyt

/-- Claim C8 (amended with the booking-id uniqueness the identity allocator
provides): if the cancelled bookingId occurs in at most one record of the
booking store, then after a successful cancelBooking a second cancelBooking
with the same id returns NotFound and leaves both stores exactly as they were
after the first cancel. -/
theorem c8_cancel_idempotent (books : List Booking) (shows : List Show) (bid : String)
    (owner owner2 : Option String) (choice choice2 : Choice)
    (books2 : List Booking) (shows2 : List Show)
    (hcount : (books.filter (fun b => b.id == bid)).length ≤ 1)
    (heq : _cancel_or_modify_common books shows bid owner choice
      = (.cancelled, books2, shows2)) :
    _cancel_or_modify_common books2 shows2 bid owner2 choice2
      = (.notFound, books2, shows2) := by
  cases hbfind : enumFind (fun b2 => b2.id == bid) books with
  | none =>
    have hval : _cancel_or_modify_common books shows bid owner choice
        = (.notFound, books, shows) := by
      unfold _cancel_or_modify_common
      simp [hbfind]
    rw [hval] at heq
    simp at heq
  | some ix =>
    obtain ⟨bidx, b⟩ := ix
    cases hown : ownerMismatch owner b with
    | true =>
      have hval : _cancel_or_modify_common books shows bid owner choice
          = (.forbidden, books, shows) := by
        unfold _cancel_or_modify_common
        simp [hbfind, hown]
      rw [hval] at heq
      simp at heq
    | false =>
      have hbooks2 : books2 = books.eraseIdx bidx := by
        cases choice with
        | cancel =>
          cases hsfind : enumFind (fun s2 => s2.id == b.showId) shows with
          | none =>
            have hval : _cancel_or_modify_common books shows bid owner .cancel
                = (.cancelled, books.eraseIdx bidx, shows) := by
              unfold _cancel_or_modify_common
              simp [hbfind, hown, hsfind]
            rw [hval] at heq
            exact (congrArg (fun q => q.2.1) heq).symm
          | some sx =>
            obtain ⟨sidx, s⟩ := sx
            have hval : _cancel_or_modify_common books shows bid owner .cancel
                = (.cancelled, books.eraseIdx bidx,
                  shows.set sidx { s with seats := s.seats + b.seats }) := by
              unfold _cancel_or_modify_common
              simp [hbfind, hown, hsfind]
            rw [hval] at heq
            exact (congrArg (fun q => q.2.1) heq).symm
        | modify ns =>
          have hne : (_cancel_or_modify_common books shows bid owner (.modify ns)).1
              ≠ CmRes.cancelled := by
            unfold _cancel_or_modify_common
            simp only [hbfind, hown, Bool.false_eq_true, if_false]
            split
            · simp
            · split
              · simp
              · split
                · simp
                · simp
          exact absurd (congrArg Prod.fst heq) hne
        | other =>
          have hval : _cancel_or_modify_common books shows bid owner .other
              = (.badChoice, books, shows) := by
            unfold _cancel_or_modify_common
            simp [hbfind, hown]
          rw [hval] at heq
          simp at heq
      have hnone : enumFind (fun b2 => b2.id == bid) books2 = none := by
        apply enumFind_eq_none.2
        intro y hy
        rw [hbooks2] at hy
        exact enumFind_erase_none hbfind hcount y hy
      unfold _cancel_or_modify_common
      rw [hnone]

/-- Witness for C8 (amended): a concrete cancel followed by a repeated cancel
of the same id. -/
theorem c8_cancel_idempotent_witness :
    _cancel_or_modify_common [⟨"7", "alice", "1", 2, "PAID"⟩] [] "7" none .cancel
      = (.notFound, [], []) ∨
    _cancel_or_modify_common
      (_cancel_or_modify_common [⟨"7", "alice", "1", 2, "PAID"⟩] [] "7" none .cancel).2.1
      (_cancel_or_modify_common [⟨"7", "alice", "1", 2, "PAID"⟩] [] "7" none .cancel).2.2
      "7" (some "eve") (.modify "3")
      = (.notFound,
        (_cancel_or_modify_common [⟨"7", "alice", "1", 2, "PAID"⟩] [] "7" none .cancel).2.1,
        (_cancel_or_modify_common [⟨"7", "alice", "1", 2, "PAID"⟩] [] "7" none .cancel).2.2) :=
  Or.inr (c8_cancel_idempotent [⟨"7", "alice", "1", 2, "PAID"⟩] [] "7" none (some "eve")
    .cancel (.modify "3") [] [] (by decide) (by decide))

/-- Counterexample to C8 as stated: with two booking records sharing the id
"7", the first cancel removes only the first record, and a second cancel of
the same id succeeds again (result `cancelled`, store changed) instead of
returning NotFound. -/
theorem c8_counterexample :
    _cancel_or_modify_common [⟨"7", "alice", "9", 2, "PAID"⟩, ⟨"7", "bob", "9", 3, "PAID"⟩]
      [] "7" none .cancel
      = (.cancelled, [⟨"7", "bob", "9", 3, "PAID"⟩], []) ∧
    _cancel_or_modify_common [⟨"7", "bob", "9", 3, "PAID"⟩] [] "7" none .cancel
      = (.cancelled, [], []) := by
  decide

/-! ### Identity allocation (C9) -/

lemma foldr_max_nonneg : ∀ l : List Int, 0 ≤ l.foldr max 0
  | [] => le_refl 0
  | v :: t => le_trans (foldr_max_nonneg t) (le_max_right v _)

lemma maxParsedId_nonneg (rows : List (List String)) : 0 ≤ maxParsedId rows :=
  foldr_max_nonneg _

lemma max_id_go : ∀ (rows : List (List String)) (a : Int), 0 ≤ a →
    rows.foldl
      (fun m r =>
        match r.head? with
        | none => m
        | some s =>
          match pyInt? s with
          | none => m
          | some v => max m v) a
      = max a (maxParsedId rows) := by
  intro rows
  induction rows with
  | nil =>
    intro a ha
    simp only [List.foldl_nil]
    exact (max_eq_left (by simpa [maxParsedId] using ha)).symm
  | cons r rest ih =>
    intro a ha
    rw [List.foldl_cons]
    cases hh : r.head? with
    | none =>
      have hskip : maxParsedId (r :: rest) = maxParsedId rest := by
        simp [maxParsedId, List.filterMap_cons, hh]
      rw [hskip]
      simpa only [hh] using ih a ha
    | some sHead =>
      cases hpv : pyInt? sHead with
      | none =>
        have hskip : maxParsedId (r :: rest) = maxParsedId rest := by
          simp [maxParsedId, List.filterMap_cons, hh, hpv]
        rw [hskip]
        simpa only [hh, hpv] using ih a ha
      | some v =>
        have hstep : maxParsedId (r :: rest) = max v (maxParsedId rest) := by
          simp [maxParsedId, List.filterMap_cons, hh, hpv]
        rw [hstep]
        have := ih (max a v) (le_trans ha (le_max_left a v))
        simp only [hh, hpv] at this ⊢
        rw [this, max_assoc]

/-- Claim C9: `_next_id_from` parses each record's first field as an integer,
silently ignoring rows whose first field is missing or unparseable, and
returns the maximum plus one as a decimal string — `"1"` on an empty or
all-unparseable store, `"6"` on a store with ids 2, 5 and "x". -/
theorem c9_next_id :
    (∀ rows : List (List String), _next_id_from rows = toString (maxParsedId rows + 1)) ∧
    _next_id_from [] = "1" ∧
    _next_id_from [["2", "t"], ["5", "t"], ["x", "t"]] = "6" ∧
    (∀ rows : List (List String), (∀ r ∈ rows, r.head?.bind pyInt? = none) →
      _next_id_from rows = "1") := by
  have hmain : ∀ rows : List (List String), _max_id rows = maxParsedId rows := by
    intro rows
    unfold _max_id
    rw [max_id_go rows 0 le_rfl]
    exact max_eq_right (maxParsedId_nonneg rows)
  refine ⟨?_, by decide, by decide, ?_⟩
  · intro rows
    unfold _next_id_from
    rw [hmain]
  · intro rows hall
    unfold _next_id_from
    rw [hmain]
    have hz : maxParsedId rows = 0 := by
      unfold maxParsedId
      rw [List.filterMap_eq_nil.2 hall]
      rfl
    rw [hz]
    decide

/-- Witness for C9: a store whose first fields are all unparseable allocates
"1". -/
theorem c9_next_id_witness : _next_id_from [["a"], ["b", "c"], []] = "1" :=
  c9_next_id.2.2.2 [["a"], ["b", "c"], []] (by decide)

/-! ### Exact-capacity booking (C10) -/

/-- Claim C10: a createBooking request for exactly the remaining seat count is
accepted and leaves remainingSeats at 0; with the showtime found and the seat
input valid, the capacity conflict fires exactly when the request strictly
exceeds the remaining count. -/
theorem c10_exact_capacity :
    (∀ (shows : List Show) (books : List Booking) (sid cname ns : String)
        (idx : Nat) (s : Show),
      _ensure_positive_int ns = true →
      enumFind (fun s2 => s2.id == sid) shows = some (idx, s) →
      s.seats = ((digitsToNat ns.toList : Nat) : Int) →
      _book_ticket_common shows books sid cname ns true
        = (.ok (_next_id_from (books.map serializeBooking)),
          shows.set idx { s with seats := 0 },
          books ++ [⟨_next_id_from (books.map serializeBooking), cname, sid,
            ((digitsToNat ns.toList : Nat) : Int), "PAID"⟩])) ∧
    (∀ (shows : List Show) (books : List Booking) (sid cname ns : String) (payOk : Bool)
        (idx : Nat) (s : Show),
      _ensure_positive_int ns = true →
      enumFind (fun s2 => s2.id == sid) shows = some (idx, s) →
      ((_book_ticket_common shows books sid cname ns payOk).1 = .notEnough
        ↔ s.seats < ((digitsToNat ns.toList : Nat) : Int))) := by
  constructor
  · intro shows books sid cname ns idx s hens hfind hseq
    have hz : s.seats - ((digitsToNat ns.toList : Nat) : Int) = 0 := by omega
    unfold _book_ticket_common
    simp [hens, hfind, hseq, hz]
  · intro shows books sid cname ns payOk idx s hens hfind
    unfold _book_ticket_common
    by_cases hlt : s.seats < ((digitsToNat ns.toList : Nat) : Int)
    · have hlt2 : s.seats < ((digitsToNat ns.data : Nat) : Int) := hlt
      simp [hens, hfind, hlt2]
    · have hlt2 : ¬ s.seats < ((digitsToNat ns.data : Nat) : Int) := hlt
      cases payOk with
      | false => simp [hens, hfind, hlt2]
      | true => simp [hens, hfind, hlt2]

/-- Witness for C10: booking exactly the 5 remaining seats succeeds and drives
the count to 0; requesting 6 of 5 is the conflict case, 5 of 5 is not. -/
theorem c10_exact_capacity_witness :
    _book_ticket_common [⟨"1", "1", "A1", "2025-01-01", "10:00", 5, "9"⟩] [] "1" "bob" "5" true
      = (.ok "1", [⟨"1", "1", "A1", "2025-01-01", "10:00", 5, "9"⟩].set 0
          { (⟨"1", "1", "A1", "2025-01-01", "10:00", 5, "9"⟩ : Show) with seats := (0 : Int) },
        [] ++ [⟨"1", "bob", "1", ((digitsToNat "5".toList : Nat) : Int), "PAID"⟩]) ∧
    ((_book_ticket_common [⟨"1", "1", "A1", "2025-01-01", "10:00", 5, "9"⟩] [] "1" "bob" "6"
        true).1 = .notEnough
      ↔ (5 : Int) < ((digitsToNat "6".toList : Nat) : Int)) :=
  ⟨c10_exact_capacity.1 [⟨"1", "1", "A1", "2025-01-01", "10:00", 5, "9"⟩] [] "1" "bob" "5" 0
      ⟨"1", "1", "A1", "2025-01-01", "10:00", 5, "9"⟩ (by decide) (by decide) (by decide),
    c10_exact_capacity.2 [⟨"1", "1", "A1", "2025-01-01", "10:00", 5, "9"⟩] [] "1" "bob" "6"
      true 0 ⟨"1", "1", "A1", "2025-01-01", "10:00", 5, "9"⟩ (by decide) (by decide)⟩


/-! ### Decimal printing: `str(int)` round-trips through `int()`

The raw store layer below needs that a seat count written with `str(...)`
parses back to the same value on the next read. -/

/-- Decimal digit characters of `n`, most significant first (the list
`Nat.toDigits 10 n` produces, with a direct recursion). -/
def decDigits (n : Nat) : List Char :=
  if n < 10 then [Nat.digitChar n]
  else decDigits (n / 10) ++ [Nat.digitChar (n % 10)]
decreasing_by exact Nat.div_lt_self (by omega) (by omega)

lemma digitChar_props {k : Nat} (h : k < 10) :
    (Nat.digitChar k).isDigit = true ∧ (Nat.digitChar k).isWhitespace = false ∧
      Nat.digitChar k ≠ '-' ∧ Nat.digitChar k ≠ '+' ∧ Nat.digitChar k ≠ ',' ∧
      (Nat.digitChar k).toNat - '0'.toNat = k := by
  interval_cases k <;> exact (by decide)

lemma decDigits_ne_nil (n : Nat) : decDigits n ≠ [] := by
  rw [decDigits]
  split
  · simp
  · simp

lemma decDigits_props (n : Nat) : ∀ c ∈ decDigits n,
    c.isDigit = true ∧ c.isWhitespace = false ∧ c ≠ '-' ∧ c ≠ '+' ∧ c ≠ ',' := by
  induction n using Nat.strong_induction_on with
  | _ n ih =>
    rw [decDigits]
    split
    · rename_i h
      intro c hc
      rw [List.mem_singleton.1 hc]
      exact ⟨(digitChar_props h).1, (digitChar_props h).2.1, (digitChar_props h).2.2.1,
        (digitChar_props h).2.2.2.1, (digitChar_props h).2.2.2.2.1⟩
    · rename_i h
      intro c hc
      rcases List.mem_append.1 hc with hc1 | hc2
      · exact ih (n / 10) (Nat.div_lt_self (by omega) (by omega)) c hc1
      · have hm : n % 10 < 10 := Nat.mod_lt _ (by omega)
        rw [List.mem_singleton.1 hc2]
        exact ⟨(digitChar_props hm).1, (digitChar_props hm).2.1, (digitChar_props hm).2.2.1,
          (digitChar_props hm).2.2.2.1, (digitChar_props hm).2.2.2.2.1⟩

lemma digitsToNat_append_singleton (xs : List Char) (c : Char) :
    digitsToNat (xs ++ [c]) = digitsToNat xs * 10 + (c.toNat - '0'.toNat) := by
  simp [digitsToNat, List.foldl_append]

lemma decDigits_val (n : Nat) : digitsToNat (decDigits n) = n := by
  induction n using Nat.strong_induction_on with
  | _ n ih =>
    rw [decDigits]
    split
    · rename_i h
      have e : digitsToNat [Nat.digitChar n] = (Nat.digitChar n).toNat - '0'.toNat := by
        simp [digitsToNat]
      rw [e]
      exact (digitChar_props h).2.2.2.2.2
    · rename_i h
      rw [digitsToNat_append_singleton, ih (n / 10) (Nat.div_lt_self (by omega) (by omega))]
      have hm : n % 10 < 10 := Nat.mod_lt _ (by omega)
      have := (digitChar_props hm).2.2.2.2.2
      omega

lemma toDigitsCore_eq : ∀ (f n : Nat) (ds : List Char), n < f →
    Nat.toDigitsCore 10 f n ds = decDigits n ++ ds := by
  intro f
  induction f with
  | zero => intro n ds h; omega
  | succ f ih =>
    intro n ds h
    show (if n / 10 = 0 then Nat.digitChar (n % 10) :: ds
      else Nat.toDigitsCore 10 f (n / 10) (Nat.digitChar (n % 10) :: ds)) = decDigits n ++ ds
    by_cases h0 : n / 10 = 0
    · rw [if_pos h0]
      have h10 : n < 10 := by omega
      rw [decDigits, if_pos h10]
      have : n % 10 = n := by omega
      rw [this]
      rfl
    · rw [if_neg h0]
      have hlt : n / 10 < f := by omega
      rw [ih (n / 10) _ hlt]
      nth_rewrite 2 [decDigits]
      rw [if_neg (show ¬ n < 10 by omega)]
      simp

lemma natRepr_toList (n : Nat) : (Nat.repr n).toList = decDigits n := by
  show (List.asString (Nat.toDigitsCore 10 (n + 1) n [])).toList = decDigits n
  rw [toDigitsCore_eq (n + 1) n [] (Nat.lt_succ_self n)]
  simp [List.asString]

lemma dropWhile_eq_self_of {p : Char → Bool} {cs : List Char}
    (h : ∀ c ∈ cs, p c = false) : cs.dropWhile p = cs := by
  cases cs with
  | nil => rfl
  | cons a as => simp [List.dropWhile_cons, h a (by simp)]

lemma stripChars_eq_self {cs : List Char} (h : ∀ c ∈ cs, c.isWhitespace = false) :
    stripChars cs = cs := by
  unfold stripChars
  rw [dropWhile_eq_self_of h, dropWhile_eq_self_of (fun c hc => h c (List.mem_reverse.1 hc)),
    List.reverse_reverse]

lemma digitsVal?_decDigits (n : Nat) : digitsVal? (decDigits n) = some n := by
  unfold digitsVal?
  rw [if_pos ⟨decDigits_ne_nil n, List.all_eq_true.2 (fun c hc => (decDigits_props n c hc).1)⟩,
    decDigits_val]

/-- Lean's `toString : Int → String` (our model of Python `str` on integers)
parses back through the model of `int()` to the same value. -/
lemma pyInt?_toString (v : Int) : pyInt? (toString v) = some v := by
  cases v with
  | ofNat m =>
    have h1 : (toString (Int.ofNat m)).toList = decDigits m := natRepr_toList m
    unfold pyInt?
    rw [h1, stripChars_eq_self (fun c hc => (decDigits_props m c hc).2.1)]
    cases hd : decDigits m with
    | nil => exact absurd hd (decDigits_ne_nil m)
    | cons c cs =>
      have hp := decDigits_props m c (by rw [hd]; simp)
      split
      · rename_i cs2 heq
        exact absurd (List.cons.inj heq).1 hp.2.2.1
      · rename_i cs2 heq
        exact absurd (List.cons.inj heq).1 hp.2.2.2.1
      · rw [← hd, digitsVal?_decDigits]
        rfl
  | negSucc m =>
    have h1 : (toString (Int.negSucc m)).toList = '-' :: decDigits (m + 1) := by
      show (("-" ++ Nat.repr (m + 1)) : String).toList = _
      rw [show (("-" ++ Nat.repr (m + 1)) : String).toList
        = ("-" : String).toList ++ (Nat.repr (m + 1)).toList from String.data_append _ _]
      rw [natRepr_toList]
      rfl
    unfold pyInt?
    rw [h1, stripChars_eq_self ?hws]
    case hws =>
      intro c hc
      rcases List.mem_cons.1 hc with rfl | hc2
      · decide
      · exact (decDigits_props (m + 1) c hc2).2.1
    split
    · rename_i cs2 heq
      have hcs : cs2 = decDigits (m + 1) := ((List.cons.inj heq).2).symm
      rw [hcs, digitsVal?_decDigits]
      show some (-((m + 1 : Nat) : Int)) = some (Int.negSucc m)
      congr 1
    · rename_i cs2 heq
      exact absurd (List.cons.inj heq).1 (by decide)
    · rename_i hne1 hne2
      exact absurd rfl (hne1 (decDigits (m + 1)))

/-- The characters of a printed integer: digits and a possible leading minus —
never a comma, never whitespace. -/
lemma toString_int_chars (v : Int) : ∀ c ∈ (toString v).toList,
    c ≠ ',' ∧ c.isWhitespace = false := by
  cases v with
  | ofNat m =>
    rw [show (toString (Int.ofNat m)).toList = decDigits m from natRepr_toList m]
    intro c hc
    exact ⟨(decDigits_props m c hc).2.2.2.2, (decDigits_props m c hc).2.1⟩
  | negSucc m =>
    have h1 : (toString (Int.negSucc m)).toList = '-' :: decDigits (m + 1) := by
      show (("-" ++ Nat.repr (m + 1)) : String).toList = _
      rw [show (("-" ++ Nat.repr (m + 1)) : String).toList
        = ("-" : String).toList ++ (Nat.repr (m + 1)).toList from String.data_append _ _]
      rw [natRepr_toList]
      rfl
    rw [h1]
    intro c hc
    rcases List.mem_cons.1 hc with rfl | hc2
    · exact ⟨by decide, by decide⟩
    · exact ⟨(decDigits_props (m + 1) c hc2).2.2.2.2, (decDigits_props (m + 1) c hc2).2.1⟩


/-! ### Joining rows back to lines: the other half of the store round trip

Python writes a row with `",".join(r)` and the next operation re-splits the
line with `split(",")`; the two are mutually inverse only while no field
carries the delimiter.  The raw store layer below makes this explicit. -/

/-- Python `",".join(fields)`. -/
def joinComma (fields : List String) : String :=
  ⟨[','].intercalate (fields.map String.toList)⟩

lemma joinComma_splitComma (ln : String) : joinComma (splitComma ln) = ln := by
  unfold joinComma splitComma
  rw [List.map_map]
  have hcomp : (String.toList ∘ fun cs : List Char => (⟨cs⟩ : String)) = id :=
    funext fun cs => rfl
  rw [hcomp, List.map_id, List.intercalate_splitOn]
  rfl

lemma splitComma_joinComma (fields : List String) (h1 : fields ≠ [])
    (h2 : ∀ f ∈ fields, ',' ∉ f.toList) :
    splitComma (joinComma fields) = fields := by
  unfold splitComma joinComma
  have hx : ∀ l ∈ fields.map String.toList, ',' ∉ l := by
    intro l hl
    rcases List.mem_map.1 hl with ⟨f, hf, rfl⟩
    exact h2 f hf
  have hls : fields.map String.toList ≠ [] := by simpa using h1
  rw [show ((⟨[','].intercalate (fields.map String.toList)⟩ : String)).toList
    = [','].intercalate (fields.map String.toList) from rfl]
  rw [List.splitOn_intercalate (fields.map String.toList) ',' hx hls, List.map_map]
  have hcomp : ((fun cs : List Char => (⟨cs⟩ : String)) ∘ String.toList) = id :=
    funext fun f => rfl
  rw [hcomp, List.map_id]

lemma splitOn_cons_char (x a : Char) (t : List Char) :
    (a :: t).splitOn x =
      if a = x then [] :: t.splitOn x else (t.splitOn x).modifyHead (List.cons a) := by
  simp [List.splitOn, List.splitOnP_cons, beq_iff_eq]

/-- Pieces produced by splitting never contain the separator. -/
lemma mem_splitOn_no_sep (x : Char) : ∀ (l : List Char), ∀ p ∈ l.splitOn x, x ∉ p := by
  intro l
  induction l with
  | nil =>
    intro p hp
    rw [List.splitOn_nil] at hp
    rw [List.mem_singleton.1 hp]
    simp
  | cons a t ih =>
    intro p hp
    rw [splitOn_cons_char] at hp
    by_cases hax : a = x
    · rw [if_pos hax] at hp
      rcases List.mem_cons.1 hp with rfl | hp2
      · simp
      · exact ih p hp2
    · rw [if_neg hax] at hp
      cases ht : t.splitOn x with
      | nil => exact absurd ht (List.splitOnP_ne_nil _ t)
      | cons h0 rest =>
        rw [ht] at hp
        rcases List.mem_cons.1 hp with rfl | hp2
        · intro hx
          rcases List.mem_cons.1 hx with rfl | hx2
          · exact hax rfl
          · exact ih h0 (by rw [ht]; simp) hx2
        · exact ih p (by rw [ht]; exact List.mem_cons_of_mem _ hp2)

lemma splitComma_pieces (ln : String) : ∀ f ∈ splitComma ln, ',' ∉ f.toList := by
  intro f hf
  rcases List.mem_map.1 hf with ⟨cs, hcs, rfl⟩
  exact mem_splitOn_no_sep ',' ln.toList cs hcs

/-- Every row `_read_rows` produces is the comma-split of some non-blank line. -/
lemma read_rows_loop_mem {r : List String} {lines : List String}
    (hr : r ∈ _read_rows_loop lines) : ∃ ln, isBlank ln = false ∧ r = splitComma ln := by
  rw [read_rows_loop_eq] at hr
  rcases List.mem_map.1 hr with ⟨ln, hln, rfl⟩
  rcases List.mem_filter.1 hln with ⟨_, hnb⟩
  exact ⟨ln, by simpa using hnb, rfl⟩

lemma intercalate_cons₂ (x : Char) (a b : List Char) (t : List (List Char)) :
    [x].intercalate (a :: b :: t) = a ++ x :: [x].intercalate (b :: t) := by
  simp [List.intercalate]

/-- A joined row of at least two fields contains the delimiter, hence is not
blank. -/
lemma isBlank_joinComma_two (fields : List String) (h : 2 ≤ fields.length) :
    isBlank (joinComma fields) = false := by
  rcases fields with _ | ⟨f1, _ | ⟨f2, rest⟩⟩
  · simp at h
  · simp at h
  · have hc : ',' ∈ (joinComma (f1 :: f2 :: rest)).toList := by
      show ',' ∈ [','].intercalate ((f1 :: f2 :: rest).map String.toList)
      rw [List.map_cons, List.map_cons, intercalate_cons₂]
      simp
    cases hall : (joinComma (f1 :: f2 :: rest)).toList.all Char.isWhitespace with
    | false => exact hall
    | true => exact absurd (List.all_eq_true.1 hall ',' hc) (by decide)

lemma isDigit_ne_comma {c : Char} (h : c.isDigit = true) : c ≠ ',' := by
  intro hc
  rw [hc] at h
  exact absurd h (by decide)

lemma decBody_no_comma {cs : List Char} (h : decBody cs = true) : ',' ∉ cs := by
  unfold decBody at h
  split at h
  · rename_i a heq
    have hcs : cs = a := by
      have h5 := List.intercalate_splitOn cs '.'
      rw [heq] at h5
      simpa [List.intercalate] using h5.symm
    rw [hcs]
    intro hmem
    simp only [Bool.and_eq_true] at h
    exact isDigit_ne_comma (List.all_eq_true.1 h.2 ',' hmem) rfl
  · rename_i a b heq
    have hcs : cs = a ++ '.' :: b := by
      have h5 := List.intercalate_splitOn cs '.'
      rw [heq, intercalate_cons₂] at h5
      simpa [List.intercalate] using h5.symm
    simp only [Bool.and_eq_true] at h
    obtain ⟨⟨ha, hb⟩, _⟩ := h
    rw [hcs]
    intro hmem
    rcases List.mem_append.1 hmem with hma | hmb
    · exact isDigit_ne_comma (List.all_eq_true.1 ha ',' hma) rfl
    · rcases List.mem_cons.1 hmb with hdot | hmb2
      · exact absurd hdot (by decide)
      · exact isDigit_ne_comma (List.all_eq_true.1 hb ',' hmb2) rfl
  · exact absurd h (by simp)

lemma mem_takeWhile_ws {cs : List Char} {c : Char}
    (h : c ∈ cs.takeWhile Char.isWhitespace) : c.isWhitespace = true :=
  List.mem_takeWhile_imp h

/-- A character list is its stripped core with whitespace on both sides. -/
lemma stripChars_decomp (cs : List Char) : ∃ pre post,
    cs = pre ++ stripChars cs ++ post ∧ (∀ c ∈ pre, c.isWhitespace = true) ∧
      (∀ c ∈ post, c.isWhitespace = true) := by
  refine ⟨cs.takeWhile Char.isWhitespace,
    ((cs.dropWhile Char.isWhitespace).reverse.takeWhile Char.isWhitespace).reverse, ?_, ?_, ?_⟩
  · unfold stripChars
    have h1 : cs = cs.takeWhile Char.isWhitespace ++ cs.dropWhile Char.isWhitespace :=
      (List.takeWhile_append_dropWhile Char.isWhitespace cs).symm
    have h2 : (cs.dropWhile Char.isWhitespace).reverse
        = (cs.dropWhile Char.isWhitespace).reverse.takeWhile Char.isWhitespace
          ++ (cs.dropWhile Char.isWhitespace).reverse.dropWhile Char.isWhitespace :=
      (List.takeWhile_append_dropWhile Char.isWhitespace
        (cs.dropWhile Char.isWhitespace).reverse).symm
    have h3 : cs.dropWhile Char.isWhitespace
        = ((cs.dropWhile Char.isWhitespace).reverse.dropWhile Char.isWhitespace).reverse
          ++ ((cs.dropWhile Char.isWhitespace).reverse.takeWhile Char.isWhitespace).reverse := by
      have h4 := congrArg List.reverse h2
      simp only [List.reverse_reverse, List.reverse_append] at h4
      exact h4
    rw [List.append_assoc]
    rw [← h3]
    exact h1
  · intro c hc
    exact mem_takeWhile_ws hc
  · intro c hc
    exact mem_takeWhile_ws (List.mem_reverse.1 hc)

lemma ws_ne_comma {c : Char} (h : c.isWhitespace = true) : c ≠ ',' := by
  intro hc
  rw [hc] at h
  exact absurd h (by decide)

/-- A string accepted by the `float()` check carries no delimiter. -/
lemma pyFloatOk_no_comma {s : String} (h : pyFloatOk s = true) : ',' ∉ s.toList := by
  rcases stripChars_decomp s.toList with ⟨pre, post, hdec, hpre, hpost⟩
  have hbody : ',' ∉ stripChars s.toList := by
    unfold pyFloatOk at h
    split at h
    · rename_i cs heq
      rw [heq]
      intro hmem
      rcases List.mem_cons.1 hmem with hdash | hmem2
      · exact absurd hdash (by decide)
      · exact decBody_no_comma h hmem2
    · rename_i cs heq
      rw [heq]
      intro hmem
      rcases List.mem_cons.1 hmem with hplus | hmem2
      · exact absurd hplus (by decide)
      · exact decBody_no_comma h hmem2
    · rename_i heq1 heq2
      exact decBody_no_comma h
  intro hmem
  rw [hdec] at hmem
  rcases List.mem_append.1 hmem with hm1 | hm2
  · rcases List.mem_append.1 hm1 with hm3 | hm4
    · exact ws_ne_comma (hpre ',' hm3) rfl
    · exact hbody hm4
  · exact ws_ne_comma (hpost ',' hm2) rfl

/-- A string matching the date regex carries no delimiter. -/
lemma dateReOk_no_comma {s : String} (h : dateReOk s = true) : ',' ∉ s.toList := by
  unfold dateReOk at h
  split at h
  · rename_i a b c d e f g h2 heq
    rw [heq]
    simp only [List.all_cons, List.all_nil, Bool.and_true, Bool.and_eq_true] at h
    intro hmem
    simp only [List.mem_cons, List.not_mem_nil, or_false] at hmem
    rcases hmem with rfl | rfl | rfl | rfl | hdash | rfl | rfl | hdash2 | rfl | rfl
    all_goals first
      | (exact absurd h.1 (by decide))
      | (exact absurd h.2.1 (by decide))
      | (exact absurd h.2.2.1 (by decide))
      | (exact absurd h.2.2.2.1 (by decide))
      | (exact absurd h.2.2.2.2.1 (by decide))
      | (exact absurd h.2.2.2.2.2.1 (by decide))
      | (exact absurd h.2.2.2.2.2.2.1 (by decide))
      | (exact absurd h.2.2.2.2.2.2.2 (by decide))
      | (exact absurd hdash (by decide))
      | (exact absurd hdash2 (by decide))
  · exact absurd h (by simp)

/-- A string matching the time regex carries no delimiter. -/
lemma timeReOk_no_comma {s : String} (h : timeReOk s = true) : ',' ∉ s.toList := by
  unfold timeReOk at h
  split at h
  · rename_i a b c d heq
    rw [heq]
    simp only [List.all_cons, List.all_nil, Bool.and_true, Bool.and_eq_true] at h
    intro hmem
    simp only [List.mem_cons, List.not_mem_nil, or_false] at hmem
    rcases hmem with rfl | rfl | hcolon | rfl | rfl
    all_goals first
      | (exact absurd h.1 (by decide))
      | (exact absurd h.2.1 (by decide))
      | (exact absurd h.2.2.1 (by decide))
      | (exact absurd h.2.2.2 (by decide))
      | (exact absurd hcolon (by decide))
  · exact absurd h (by simp)


/-! ### Parsing rows into typed records

The typed records abstract rows of the schema shape; `optMapList` parses a
whole store, failing when any row deviates. -/

/-- Parse every element, failing when any single parse fails. -/
def optMapList {α β : Type} (f : α → Option β) : List α → Option (List β)
  | [] => some []
  | a :: as =>
    match f a, optMapList f as with
    | some b, some bs => some (b :: bs)
    | _, _ => none

lemma optMapList_cons_some {α β : Type} {f : α → Option β} {a : α} {as : List α}
    {l : List β} (h : optMapList f (a :: as) = some l) :
    ∃ b bs, f a = some b ∧ optMapList f as = some bs ∧ l = b :: bs := by
  unfold optMapList at h
  cases hfa : f a with
  | none => rw [hfa] at h; simp at h
  | some b =>
    cases hrest : optMapList f as with
    | none => rw [hfa, hrest] at h; simp at h
    | some bs =>
      rw [hfa, hrest] at h
      exact ⟨b, bs, rfl, rfl, (Option.some.inj h).symm⟩

lemma optMapList_cons_build {α β : Type} {f : α → Option β} {a : α} {as : List α}
    {b : β} {bs : List β} (h1 : f a = some b) (h2 : optMapList f as = some bs) :
    optMapList f (a :: as) = some (b :: bs) := by
  unfold optMapList
  rw [h1, h2]

lemma optMapList_set {α β : Type} {f : α → Option β} :
    ∀ {as : List α} {bs : List β} {i : Nat} {a' : α} {b' : β},
      optMapList f as = some bs → f a' = some b' →
      optMapList f (as.set i a') = some (bs.set i b') := by
  intro as
  induction as with
  | nil =>
    intro bs i a' b' h _
    unfold optMapList at h
    rw [← Option.some.inj h]
    simp [optMapList]
  | cons a t ih =>
    intro bs i a' b' h hb
    rcases optMapList_cons_some h with ⟨b, bt, hfa, hrest, rfl⟩
    cases i with
    | zero => exact optMapList_cons_build hb hrest
    | succ j => exact optMapList_cons_build hfa (ih hrest hb)

lemma optMapList_append_one {α β : Type} {f : α → Option β} :
    ∀ {as : List α} {bs : List β} {a' : α} {b' : β},
      optMapList f as = some bs → f a' = some b' →
      optMapList f (as ++ [a']) = some (bs ++ [b']) := by
  intro as
  induction as with
  | nil =>
    intro bs a' b' h hb
    unfold optMapList at h
    rw [← Option.some.inj h]
    simpa [optMapList] using optMapList_cons_build hb (show optMapList f [] = some [] from rfl)
  | cons a t ih =>
    intro bs a' b' h hb
    rcases optMapList_cons_some h with ⟨b, bt, hfa, hrest, rfl⟩
    exact optMapList_cons_build hfa (ih hrest hb)

lemma optMapList_eraseIdx {α β : Type} {f : α → Option β} :
    ∀ {as : List α} {bs : List β} {i : Nat},
      optMapList f as = some bs →
      optMapList f (as.eraseIdx i) = some (bs.eraseIdx i) := by
  intro as
  induction as with
  | nil =>
    intro bs i h
    unfold optMapList at h
    rw [← Option.some.inj h]
    simp [optMapList]
  | cons a t ih =>
    intro bs i h
    rcases optMapList_cons_some h with ⟨b, bt, hfa, hrest, rfl⟩
    cases i with
    | zero => simpa [List.eraseIdx] using hrest
    | succ j =>
      simp only [List.eraseIdx]
      exact optMapList_cons_build hfa (ih hrest)

/-- The first-match searches on raw rows and on their parses land on the same
index, with related elements. -/
lemma enumFind_optMap {α β : Type} {f : α → Option β} {p : α → Bool} {q : β → Bool}
    (hpq : ∀ a b, f a = some b → p a = q b) :
    ∀ {as : List α} {bs : List β}, optMapList f as = some bs →
      (enumFind p as = none ∧ enumFind q bs = none) ∨
      (∃ i a b, enumFind p as = some (i, a) ∧ enumFind q bs = some (i, b) ∧ f a = some b) := by
  intro as
  induction as with
  | nil =>
    intro bs h
    unfold optMapList at h
    rw [← Option.some.inj h]
    exact Or.inl ⟨rfl, rfl⟩
  | cons a t ih =>
    intro bs h
    rcases optMapList_cons_some h with ⟨b, bt, hfa, hrest, rfl⟩
    by_cases hpa : p a = true
    · refine Or.inr ⟨0, a, b, ?_, ?_, hfa⟩
      · rw [enumFind_cons, if_pos hpa]
      · rw [enumFind_cons, if_pos ((hpq a b hfa) ▸ hpa)]
    · have hqa : q b ≠ true := by rw [← hpq a b hfa]; exact hpa
      rcases ih hrest with ⟨hn1, hn2⟩ | ⟨i, a2, b2, h1, h2, h3⟩
      · refine Or.inl ⟨?_, ?_⟩
        · rw [enumFind_cons, if_neg hpa, hn1]; rfl
        · rw [enumFind_cons, if_neg hqa, hn2]; rfl
      · refine Or.inr ⟨i + 1, a2, b2, ?_, ?_, h3⟩
        · rw [enumFind_cons, if_neg hpa, h1]; rfl
        · rw [enumFind_cons, if_neg hqa, h2]; rfl

/-- The id allocator reads only first fields, so two stores with the same
column of first fields allocate the same id. -/
lemma max_id_congr : ∀ (as bs : List (List String)),
    as.map List.head? = bs.map List.head? → _max_id as = _max_id bs := by
  have hgo : ∀ (as bs : List (List String)) (acc : Int),
      as.map List.head? = bs.map List.head? →
      as.foldl (fun m r =>
        match r.head? with
        | none => m
        | some s =>
          match pyInt? s with
          | none => m
          | some v => max m v) acc
      = bs.foldl (fun m r =>
        match r.head? with
        | none => m
        | some s =>
          match pyInt? s with
          | none => m
          | some v => max m v) acc := by
    intro as
    induction as with
    | nil =>
      intro bs acc h
      cases bs with
      | nil => rfl
      | cons b bt => simp at h
    | cons a t ih =>
      intro bs acc h
      cases bs with
      | nil => simp at h
      | cons b bt =>
        simp only [List.map_cons, List.cons.injEq] at h
        rw [List.foldl_cons, List.foldl_cons, h.1]
        exact ih bt _ h.2
  intro as bs h
  unfold _max_id
  exact hgo as bs 0 h

/-! ### Typed views of the raw stores -/

/-- Parse a showtime row (exactly the 7 schema fields, seats numeric). -/
def rowToShow (r : List String) : Option Show :=
  match r with
  | [i, m, a, d, t, se, bp] => (pyInt? se).map (fun v => ⟨i, m, a, d, t, v, bp⟩)
  | _ => none

/-- Parse a booking row (exactly the 5 schema fields, seats numeric). -/
def rowToBooking (r : List String) : Option Booking :=
  match r with
  | [i, c, sh, se, st] => (pyInt? se).map (fun v => ⟨i, c, sh, v, st⟩)
  | _ => none

/-- Parse a movie row (exactly the 6 schema fields). -/
def rowToMovie (r : List String) : Option Movie :=
  match r with
  | [i, t, rt, du, lg, st] => some ⟨i, t, rt, du, lg, st⟩
  | _ => none

/-- The auditorium view `load_aud_map` builds: rows with at least two fields,
keyed by the first (extra fields ignored, short rows skipped). -/
def rowToAud (r : List String) : Option Aud :=
  match r with
  | i :: nm :: _ => some ⟨i, nm⟩
  | _ => none

def showsOfLines (lines : List String) : Option (List Show) :=
  optMapList rowToShow (_read_rows_loop lines)

def booksOfLines (lines : List String) : Option (List Booking) :=
  optMapList rowToBooking (_read_rows_loop lines)

def moviesOfLines (lines : List String) : Option (List Movie) :=
  optMapList rowToMovie (_read_rows_loop lines)

def audsOfLines (lines : List String) : List Aud :=
  (_read_rows_loop lines).filterMap rowToAud

lemma rowToShow_some {r : List String} {s : Show} (h : rowToShow r = some s) :
    ∃ se, r = [s.id, s.movieId, s.audId, s.date, s.time, se, s.basePrice] ∧
      pyInt? se = some s.seats := by
  unfold rowToShow at h
  split at h
  · rename_i i m a d t se bp
    rcases Option.map_eq_some'.1 h with ⟨v, hv, hs⟩
    refine ⟨se, ?_, ?_⟩
    · rw [← hs]
    · rw [← hs]; exact hv
  · simp at h

lemma rowToBooking_some {r : List String} {b : Booking} (h : rowToBooking r = some b) :
    ∃ se, r = [b.id, b.customer, b.showId, se, b.status] ∧ pyInt? se = some b.seats := by
  unfold rowToBooking at h
  split at h
  · rename_i i c sh se st
    rcases Option.map_eq_some'.1 h with ⟨v, hv, hs⟩
    refine ⟨se, ?_, ?_⟩
    · rw [← hs]
    · rw [← hs]; exact hv
  · simp at h

/-! ### Reading written rows back -/

/-- Conditions under which a row survives the join/split round trip. -/
def GoodRow (r : List String) : Prop :=
  r ≠ [] ∧ (∀ f ∈ r, ',' ∉ f.toList) ∧ isBlank (joinComma r) = false

lemma splitComma_ne_nil (ln : String) : splitComma ln ≠ [] := by
  unfold splitComma
  intro h
  exact List.splitOnP_ne_nil _ ln.toList (by simpa using h)

lemma goodRow_of_read {r : List String} {lines : List String}
    (hr : r ∈ _read_rows_loop lines) : GoodRow r := by
  rcases read_rows_loop_mem hr with ⟨ln, hnb, rfl⟩
  exact ⟨splitComma_ne_nil ln, splitComma_pieces ln, by rw [joinComma_splitComma]; exact hnb⟩

/-- Rewriting a store from good rows reads back to exactly those rows. -/
lemma read_rows_loop_map_join {rows : List (List String)}
    (h : ∀ r ∈ rows, GoodRow r) :
    _read_rows_loop (rows.map joinComma) = rows := by
  rw [read_rows_loop_eq]
  have hfil : (rows.map joinComma).filter (fun ln => !isBlank ln) = rows.map joinComma := by
    apply List.filter_eq_self.2
    intro ln hln
    rcases List.mem_map.1 hln with ⟨r, hr, rfl⟩
    simp [(h r hr).2.2]
  rw [hfil, List.map_map]
  have : rows.map (splitComma ∘ joinComma) = rows.map id := by
    apply List.map_congr_left
    intro r hr
    exact splitComma_joinComma r (h r hr).1 (h r hr).2.1
  rw [this, List.map_id]

/-- Appending one non-blank line to a store file. -/
lemma read_rows_loop_append_one (lines : List String) (l : String)
    (h : isBlank l = false) :
    _read_rows_loop (lines ++ [l]) = _read_rows_loop lines ++ [splitComma l] := by
  rw [read_rows_loop_eq, read_rows_loop_eq, List.filter_append, List.map_append]
  congr 1
  simp [h]


/-! ### Raw store operations

The Python functions re-read their CSV files at the start of every call and
write them back with `_write_all` (header plus `",".join(r)` per row) or
`_append_line`.  The raw operations below act on the data lines of the files
themselves, so the join/split round trip between operations is part of the
model.  An uncaught exception — `IndexError` on a short row, `ValueError` from
`int()` — aborts the Python process before any further write; it is modelled
as `none`.  (Rows produced by splitting are never empty, so `r[0]` cannot
fail; the remaining indexed accesses are guarded explicitly.) -/

/-- Model of the `for m in _read_rows(MOV_FILE): if m[0] == mid and m[5] ==
"Active"` loop of `add_show`, short-circuit crashes included. -/
def rawMovieActive (mid : String) : List (List String) → Option Bool
  | [] => some false
  | m :: rest =>
    if m.head? == some mid then
      match m[5]? with
      | none => none
      | some st => if st == "Active" then some true else rawMovieActive mid rest
    else rawMovieActive mid rest

/-- Model of the overlap loop of `add_show`: `s[2] == aid and s[3] == date and
s[4] == time`, short-circuit crashes included. -/
def rawOverlapAny (aid date time : String) : List (List String) → Option Bool
  | [] => some false
  | r :: rest =>
    match r[2]? with
    | none => none
    | some a2 =>
      if a2 != aid then rawOverlapAny aid date time rest
      else
        match r[3]? with
        | none => none
        | some d3 =>
          if d3 != date then rawOverlapAny aid date time rest
          else
            match r[4]? with
            | none => none
            | some t4 =>
              if t4 != time then rawOverlapAny aid date time rest
              else some true

/-- Model of the overlap loop of `upd_show`, which skips the row being
updated (`if k == idx: continue`). -/
def rawOverlapExcl (aid date time : String) (idx : Nat) : Nat → List (List String) → Option Bool
  | _, [] => some false
  | k, r :: rest =>
    if k = idx then rawOverlapExcl aid date time idx (k + 1) rest
    else
      match r[2]? with
      | none => none
      | some a2 =>
        if a2 != aid then rawOverlapExcl aid date time idx (k + 1) rest
        else
          match r[3]? with
          | none => none
          | some d3 =>
            if d3 != date then rawOverlapExcl aid date time idx (k + 1) rest
            else
              match r[4]? with
              | none => none
              | some t4 =>
                if t4 != time then rawOverlapExcl aid date time idx (k + 1) rest
                else some true

/-- Raw `add_show` on the data lines of the three files it reads; on success
the new row is joined and appended to `SHOW_FILE` (`_append_line`). -/
def rawAddShow (movieLines audLines showLines : List String)
    (mid aid date time seats bp : String) : Option (AddShowRes × List String) :=
  match pyInt? seats with
  | none => some (.badNumeric, showLines)
  | some seatsI =>
    if !pyFloatOk bp then some (.badNumeric, showLines)
    else if !_validate_date_time date time then some (.badDateTime, showLines)
    else
      match rawMovieActive mid (_read_rows_loop movieLines) with
      | none => none
      | some false => some (.badMovie, showLines)
      | some true =>
        if !((_read_rows_loop audLines).any
            (fun r => decide (2 ≤ r.length) && (r.head? == some aid))) then
          some (.noAud, showLines)
        else
          match rawOverlapAny aid date time (_read_rows_loop showLines) with
          | none => none
          | some true => some (.overlap, showLines)
          | some false =>
            some (.ok (_next_id_from (_read_rows_loop showLines)),
              showLines ++ [joinComma [_next_id_from (_read_rows_loop showLines), mid, aid,
                date, time, toString seatsI, bp]])

/-- Raw `upd_show`: the updated row is rebuilt from the raw inputs and the
whole file rewritten with `_write_all`. -/
def rawUpdShow (showLines : List String) (sid mid aid date time seats bp : String) :
    Option (UpdShowRes × List String) :=
  match enumFind (fun r => r.head? == some sid) (_read_rows_loop showLines) with
  | none => some (.notFound, showLines)
  | some (idx, _r) =>
    match pyInt? seats with
    | none => some (.badNumeric, showLines)
    | some seatsI =>
      if !pyFloatOk bp then some (.badNumeric, showLines)
      else if !_validate_date_time date time then some (.badDateTime, showLines)
      else
        match rawOverlapExcl aid date time idx 0 (_read_rows_loop showLines) with
        | none => none
        | some true => some (.overlap, showLines)
        | some false =>
          some (.ok, (((_read_rows_loop showLines).set idx
            [sid, mid, aid, date, time, toString seatsI, bp]).map joinComma))

/-- Raw `_book_ticket_common`: seats are decremented in the re-read show
rows, the file rewritten, and the booking line appended with the customer
name written verbatim. -/
def rawBook (showLines bookLines : List String) (sid cname nseats : String) (payOk : Bool) :
    Option (BookRes × List String × List String) :=
  if !_ensure_positive_int nseats then some (.badSeats, showLines, bookLines)
  else
    match enumFind (fun r => r.head? == some sid) (_read_rows_loop showLines) with
    | none => some (.showNotFound, showLines, bookLines)
    | some (idx, r) =>
      match r[5]? with
      | none => none
      | some seStr =>
        match pyInt? seStr with
        | none => none
        | some avail =>
          if avail < ((digitsToNat nseats.toList : Nat) : Int) then
            some (.notEnough, showLines, bookLines)
          else if !payOk then some (.badPayment, showLines, bookLines)
          else
            some (.ok (_next_id_from (_read_rows_loop bookLines)),
              ((_read_rows_loop showLines).set idx
                (r.set 5 (toString (avail - ((digitsToNat nseats.toList : Nat) : Int))))).map
                  joinComma,
              bookLines ++ [joinComma [_next_id_from (_read_rows_loop bookLines), cname, sid,
                toString ((digitsToNat nseats.toList : Nat) : Int), "PAID"]])

/-- The continuation of `_cancel_or_modify_common` after the ownership guard:
`sid = books[bidx][2]` and the showtime search happen before the choice
branch; the modify branch parses the old seat count before checking that the
show exists, exactly as the source does. -/
def _rawCmChoice (bookLines showLines : List String) (bidx : Nat) (b : List String)
    (choice : Choice) : Option (CmRes × List String × List String) :=
  match b[2]? with
  | none => none
  | some sid =>
    match enumFind (fun r => r.head? == some sid) (_read_rows_loop showLines), choice with
    | sfound, .cancel =>
      match sfound with
      | some (sidx, s) =>
        match s[5]? with
        | none => none
        | some s5 =>
          match pyInt? s5 with
          | none => none
          | some avail =>
            match b[3]? with
            | none => none
            | some b3 =>
              match pyInt? b3 with
              | none => none
              | some bseats =>
                some (.cancelled,
                  ((_read_rows_loop bookLines).eraseIdx bidx).map joinComma,
                  ((_read_rows_loop showLines).set sidx
                    (s.set 5 (toString (avail + bseats)))).map joinComma)
      | none =>
        some (.cancelled, ((_read_rows_loop bookLines).eraseIdx bidx).map joinComma, showLines)
    | sfound, .modify ns =>
      if !_ensure_positive_int ns then some (.badSeats, bookLines, showLines)
      else
        match b[3]? with
        | none => none
        | some b3 =>
          match pyInt? b3 with
          | none => none
          | some oldSeats =>
            match sfound with
            | none => some (.showMissing, bookLines, showLines)
            | some (sidx, s) =>
              match s[5]? with
              | none => none
              | some s5 =>
                match pyInt? s5 with
                | none => none
                | some avail =>
                  if avail - (((digitsToNat ns.toList : Nat) : Int) - oldSeats) < 0 then
                    some (.notEnough, bookLines, showLines)
                  else
                    some (.modified,
                      ((_read_rows_loop bookLines).set bidx
                        (b.set 3 (toString ((digitsToNat ns.toList : Nat) : Int)))).map joinComma,
                      ((_read_rows_loop showLines).set sidx
                        (s.set 5 (toString (avail -
                          (((digitsToNat ns.toList : Nat) : Int) - oldSeats))))).map joinComma)
    | _, .other => some (.badChoice, bookLines, showLines)

/-- Raw `_cancel_or_modify_common`: lookup, ownership guard (which indexes
`books[bidx][1]` only when a requester is present), then the choice branch. -/
def rawCm (bookLines showLines : List String) (bid : String) (owner : Option String)
    (choice : Choice) : Option (CmRes × List String × List String) :=
  match enumFind (fun r => r.head? == some bid) (_read_rows_loop bookLines) with
  | none => some (.notFound, bookLines, showLines)
  | some (bidx, b) =>
    match owner with
    | some o =>
      match b[1]? with
      | none => none
      | some cust =>
        if lowerStr cust != lowerStr o then some (.forbidden, bookLines, showLines)
        else _rawCmChoice bookLines showLines bidx b choice
    | none => _rawCmChoice bookLines showLines bidx b choice

/-- The data lines of the four persisted stores. -/
structure Files where
  movies : List String
  auds : List String
  shows : List String
  books : List String
deriving DecidableEq

/-- Run one operation against the files, propagating a crash as `none`. -/
def rawApplyOp (fs : Files) : Op → Option Files
  | .addShow mid aid date time seats bp =>
    (rawAddShow fs.movies fs.auds fs.shows mid aid date time seats bp).map
      (fun r => { fs with shows := r.2 })
  | .updShow sid mid aid date time seats bp =>
    (rawUpdShow fs.shows sid mid aid date time seats bp).map (fun r => { fs with shows := r.2 })
  | .book sid cname ns payOk =>
    (rawBook fs.shows fs.books sid cname ns payOk).map
      (fun r => { fs with shows := r.2.1, books := r.2.2 })
  | .cm bid owner choice =>
    (rawCm fs.books fs.shows bid owner choice).map
      (fun r => { fs with books := r.2.1, shows := r.2.2 })

/-- Run a sequence of operations on the files, left to right. -/
def rawApplyOps : Files → List Op → Option Files
  | fs, [] => some fs
  | fs, op :: rest =>
    match rawApplyOp fs op with
    | none => none
    | some fs2 => rawApplyOps fs2 rest

/-- The input carries no field separator. -/
def sepFree (s : String) : Bool :=
  !(s.toList.contains ',')

/-- The unvalidated free-text inputs of an operation carry no field
separator: the customer name of createBooking, and the movie/auditorium ids
of updateShowtime (the only written inputs the source neither validates nor
takes from an existing split field). -/
def sepFreeInputs : Op → Bool
  | .book _ cname _ _ => sepFree cname
  | .updShow _ mid aid _ _ _ _ => sepFree mid && sepFree aid
  | _ => true

/-- Well-formed files: every row of the movie, showtime and booking stores
parses against its schema. -/
def WfFiles (fs : Files) : Prop :=
  (moviesOfLines fs.movies).isSome ∧ (showsOfLines fs.shows).isSome ∧
    (booksOfLines fs.books).isSome


/-! ### Correspondence between raw loops and their typed counterparts -/

lemma head?_mem {α : Type} {l : List α} {x : α} (h : l.head? = some x) : x ∈ l := by
  cases l with
  | nil => simp at h
  | cons a t =>
    rw [show (a :: t).head? = some a from rfl] at h
    rw [← Option.some.inj h]
    simp

lemma sepFree_no_comma {s : String} (h : sepFree s = true) : ',' ∉ s.toList := by
  unfold sepFree at h
  intro hmem
  simp at h
  exact h hmem

lemma string_lit_no_comma_PAID : ',' ∉ ("PAID" : String).toList := by decide

lemma rowToShow_head {r : List String} {s : Show} (h : rowToShow r = some s) :
    r.head? = some s.id := by
  rcases rowToShow_some h with ⟨se, rfl, _⟩
  rfl

lemma rowToBooking_head {r : List String} {b : Booking} (h : rowToBooking r = some b) :
    r.head? = some b.id := by
  rcases rowToBooking_some h with ⟨se, rfl, _⟩
  rfl

lemma rowToMovie_some {r : List String} {m : Movie} (h : rowToMovie r = some m) :
    r = [m.id, m.title, m.rating, m.duration, m.language, m.status] := by
  unfold rowToMovie at h
  split at h
  · rename_i i t rt du lg st
    rw [← Option.some.inj h]
  · simp at h

lemma optMapList_heads_shows : ∀ {rows : List (List String)} {tys : List Show},
    optMapList rowToShow rows = some tys →
    rows.map List.head? = (tys.map serializeShow).map List.head? := by
  intro rows
  induction rows with
  | nil =>
    intro tys h
    unfold optMapList at h
    rw [← Option.some.inj h]
    rfl
  | cons r t ih =>
    intro tys h
    rcases optMapList_cons_some h with ⟨s, ts, hr, hrest, rfl⟩
    simp only [List.map_cons, List.cons.injEq]
    exact ⟨by rw [rowToShow_head hr]; rfl, ih hrest⟩

lemma optMapList_heads_books : ∀ {rows : List (List String)} {tbs : List Booking},
    optMapList rowToBooking rows = some tbs →
    rows.map List.head? = (tbs.map serializeBooking).map List.head? := by
  intro rows
  induction rows with
  | nil =>
    intro tbs h
    unfold optMapList at h
    rw [← Option.some.inj h]
    rfl
  | cons r t ih =>
    intro tbs h
    rcases optMapList_cons_some h with ⟨b, tbs2, hr, hrest, rfl⟩
    simp only [List.map_cons, List.cons.injEq]
    exact ⟨by rw [rowToBooking_head hr]; rfl, ih hrest⟩

lemma next_id_shows_congr {rows : List (List String)} {tys : List Show}
    (h : optMapList rowToShow rows = some tys) :
    _next_id_from rows = _next_id_from (tys.map serializeShow) := by
  unfold _next_id_from
  rw [max_id_congr rows (tys.map serializeShow) (optMapList_heads_shows h)]

lemma next_id_books_congr {rows : List (List String)} {tbs : List Booking}
    (h : optMapList rowToBooking rows = some tbs) :
    _next_id_from rows = _next_id_from (tbs.map serializeBooking) := by
  unfold _next_id_from
  rw [max_id_congr rows (tbs.map serializeBooking) (optMapList_heads_books h)]

lemma rawMovieActive_corr : ∀ {rows : List (List String)} {tms : List Movie},
    optMapList rowToMovie rows = some tms →
    rawMovieActive mid rows = some (tms.any (fun m => m.id == mid && m.status == "Active")) := by
  intro rows
  induction rows with
  | nil =>
    intro tms h
    unfold optMapList at h
    rw [← Option.some.inj h]
    rfl
  | cons r t ih =>
    intro tms h
    rcases optMapList_cons_some h with ⟨m, tms2, hr, hrest, rfl⟩
    rw [rowToMovie_some hr]
    show (if ((some m.id == some mid) : Bool) then _ else _) = _
    by_cases hid : m.id = mid
    · rw [if_pos (by simp [hid])]
      show (if (m.status == "Active" : Bool) then _ else _) = _
      by_cases hst : m.status = "Active"
      · rw [if_pos (by simp [hst])]
        simp [List.any_cons, hid, hst]
      · rw [if_neg (by simpa using hst), ih hrest]
        simp [List.any_cons, hst]
    · rw [if_neg (by simpa using hid), ih hrest]
      simp [List.any_cons, hid]

lemma aud_any_corr : ∀ rows : List (List String),
    rows.any (fun r => decide (2 ≤ r.length) && (r.head? == some aid))
      = (rows.filterMap rowToAud).any (fun a => a.id == aid) := by
  intro rows
  induction rows with
  | nil => rfl
  | cons r t ih =>
    rcases r with _ | ⟨x, _ | ⟨y, rest⟩⟩
    · simpa [List.any_cons, rowToAud, List.filterMap_cons] using ih
    · simpa [List.any_cons, rowToAud, List.filterMap_cons] using ih
    · simp only [List.any_cons, List.filterMap_cons, rowToAud]
      rw [← ih]
      congr 1
      show (decide (2 ≤ (x :: y :: rest).length) && ((some x == some aid) : Bool))
        = ((x == aid : Bool))
      simp [Nat.le_add_left]

lemma rawOverlapAny_corr {aid date time : String} :
    ∀ {rows : List (List String)} {tys : List Show},
    optMapList rowToShow rows = some tys →
    rawOverlapAny aid date time rows
      = some (tys.any (fun s => s.audId == aid && s.date == date && s.time == time)) := by
  intro rows
  induction rows with
  | nil =>
    intro tys h
    unfold optMapList at h
    rw [← Option.some.inj h]
    rfl
  | cons r t ih =>
    intro tys h
    rcases optMapList_cons_some h with ⟨s, ts, hr, hrest, rfl⟩
    rcases rowToShow_some hr with ⟨se, rfl, hse⟩
    show (if (s.audId != aid : Bool) then rawOverlapAny aid date time t else _) = _
    by_cases ha : s.audId = aid
    · rw [if_neg (by simp [ha])]
      show (if (s.date != date : Bool) then rawOverlapAny aid date time t else _) = _
      by_cases hd : s.date = date
      · rw [if_neg (by simp [hd])]
        show (if (s.time != time : Bool) then rawOverlapAny aid date time t else _) = _
        by_cases ht : s.time = time
        · rw [if_neg (by simp [ht])]
          simp [List.any_cons, ha, hd, ht]
        · rw [if_pos (by simpa using ht), ih hrest]
          simp [List.any_cons, ht]
      · rw [if_pos (by simpa using hd), ih hrest]
        simp [List.any_cons, hd]
    · rw [if_pos (by simpa using ha), ih hrest]
      simp [List.any_cons, ha]

lemma rawOverlapExcl_corr {aid date time : String} {idx : Nat} :
    ∀ {rows : List (List String)} {tys : List Show} {k : Nat},
    optMapList rowToShow rows = some tys →
    rawOverlapExcl aid date time idx k rows
      = some (anyFrom (fun j s2 => (j != idx) &&
          (s2.audId == aid && s2.date == date && s2.time == time)) k tys) := by
  intro rows
  induction rows with
  | nil =>
    intro tys k h
    unfold optMapList at h
    rw [← Option.some.inj h]
    rfl
  | cons r t ih =>
    intro tys k h
    rcases optMapList_cons_some h with ⟨s, ts, hr, hrest, rfl⟩
    rcases rowToShow_some hr with ⟨se, rfl, hse⟩
    rw [anyFrom_cons]
    by_cases hk : k = idx
    · show (if k = idx then rawOverlapExcl aid date time idx (k + 1) t else _) = _
      rw [if_pos hk, ih hrest]
      have : ((k != idx : Bool)) = false := by simp [hk]
      rw [this]
      simp
    · show (if k = idx then _ else _) = _
      rw [if_neg hk]
      have hkb : ((k != idx : Bool)) = true := by simp [hk]
      rw [hkb]
      simp only [Bool.true_and]
      by_cases ha : s.audId = aid
      · show (if (s.audId != aid : Bool) then rawOverlapExcl aid date time idx (k + 1) t
          else _) = _
        rw [if_neg (by simp [ha])]
        by_cases hd : s.date = date
        · show (if (s.date != date : Bool) then rawOverlapExcl aid date time idx (k + 1) t
            else _) = _
          rw [if_neg (by simp [hd])]
          by_cases ht2 : s.time = time
          · show (if (s.time != time : Bool) then rawOverlapExcl aid date time idx (k + 1) t
              else _) = _
            rw [if_neg (by simp [ht2])]
            simp [ha, hd, ht2]
          · show (if (s.time != time : Bool) then rawOverlapExcl aid date time idx (k + 1) t
              else _) = _
            rw [if_pos (by simpa using ht2), ih hrest]
            simp [ht2]
        · show (if (s.date != date : Bool) then rawOverlapExcl aid date time idx (k + 1) t
            else _) = _
          rw [if_pos (by simpa using hd), ih hrest]
          simp [hd]
      · show (if (s.audId != aid : Bool) then rawOverlapExcl aid date time idx (k + 1) t
          else _) = _
        rw [if_pos (by simpa using ha), ih hrest]
        simp [ha]


/-! ### Simulation: the raw operations refine the typed ones on well-formed
stores with separator-free inputs -/

lemma enumFind_mem {α : Type} {p : α → Bool} {l : List α} {i : Nat} {x : α}
    (h : enumFind p l = some (i, x)) : x ∈ l := by
  rcases enumFind_some h with ⟨hi, hget, _⟩
  exact hget ▸ List.getElem_mem hi

lemma toString_int_no_comma (v : Int) : ',' ∉ (toString v).toList :=
  fun h => (toString_int_chars v ',' h).1 rfl

lemma next_id_no_comma (rows : List (List String)) : ',' ∉ (_next_id_from rows).toList := by
  unfold _next_id_from
  exact toString_int_no_comma _

lemma goodRow_show_fields (f0 f1 f2 f3 f4 f5 f6 : String)
    (h : ∀ f ∈ [f0, f1, f2, f3, f4, f5, f6], ',' ∉ f.toList) :
    GoodRow [f0, f1, f2, f3, f4, f5, f6] :=
  ⟨by simp, h, isBlank_joinComma_two _ (by simp)⟩

lemma goodRow_book_fields (f0 f1 f2 f3 f4 : String)
    (h : ∀ f ∈ [f0, f1, f2, f3, f4], ',' ∉ f.toList) :
    GoodRow [f0, f1, f2, f3, f4] :=
  ⟨by simp, h, isBlank_joinComma_two _ (by simp)⟩

lemma show_find_agree {sid : String} : ∀ (a : List String) (b : Show),
    rowToShow a = some b → ((a.head? == some sid) = (b.id == sid)) := by
  intro a b hab
  rw [rowToShow_head hab]
  rfl

lemma book_find_agree {bid : String} : ∀ (a : List String) (b : Booking),
    rowToBooking a = some b → ((a.head? == some bid) = (b.id == bid)) := by
  intro a b hab
  rw [rowToBooking_head hab]
  rfl

lemma rawBook_sim (showLines bookLines : List String) (sid cname ns : String) (payOk : Bool)
    (tShows : List Show) (tBooks : List Booking)
    (hs : showsOfLines showLines = some tShows)
    (hb : booksOfLines bookLines = some tBooks)
    (hname : sepFree cname = true) :
    ∃ out, rawBook showLines bookLines sid cname ns payOk = some out ∧
      showsOfLines out.2.1 = some (_book_ticket_common tShows tBooks sid cname ns payOk).2.1 ∧
      booksOfLines out.2.2 = some (_book_ticket_common tShows tBooks sid cname ns payOk).2.2 := by
  have hsm : optMapList rowToShow (_read_rows_loop showLines) = some tShows := hs
  have hbm : optMapList rowToBooking (_read_rows_loop bookLines) = some tBooks := hb
  cases hens : _ensure_positive_int ns with
  | false =>
    refine ⟨(.badSeats, showLines, bookLines), ?_, ?_, ?_⟩
    · unfold rawBook
      simp [hens]
    · unfold _book_ticket_common
      simp [hens, hs]
    · unfold _book_ticket_common
      simp [hens, hb]
  | true =>
    rcases enumFind_optMap (@show_find_agree sid) hsm with ⟨hn1, hn2⟩ | ⟨i, r, s, h1, h2, h3⟩
    · refine ⟨(.showNotFound, showLines, bookLines), ?_, ?_, ?_⟩
      · unfold rawBook
        simp [hens, hn1]
      · unfold _book_ticket_common
        simp [hens, hn2, hs]
      · unfold _book_ticket_common
        simp [hens, hn2, hb]
    · rcases rowToShow_some h3 with ⟨se, hre, hse⟩
      have hr5 : r[5]? = some se := by rw [hre]; rfl
      by_cases hlt : s.seats < ((digitsToNat ns.data : Nat) : Int)
      · refine ⟨(.notEnough, showLines, bookLines), ?_, ?_, ?_⟩
        · unfold rawBook
          simp [hens, h1, hr5, hse, hlt]
        · unfold _book_ticket_common
          simp [hens, h2, hlt, hs]
        · unfold _book_ticket_common
          simp [hens, h2, hlt, hb]
      · cases hpay : payOk with
        | false =>
          refine ⟨(.badPayment, showLines, bookLines), ?_, ?_, ?_⟩
          · unfold rawBook
            simp [hens, h1, hr5, hse, hlt]
          · unfold _book_ticket_common
            simp [hens, h2, hlt, hs]
          · unfold _book_ticket_common
            simp [hens, h2, hlt, hb]
        | true =>
          have hrmem : r ∈ _read_rows_loop showLines := enumFind_mem h1
          have hgr : GoodRow r := goodRow_of_read hrmem
          have hsidr : r.head? = some sid := by
            rcases enumFind_some h1 with ⟨_, _, hp⟩
            exact eq_of_beq hp
          have hsid_nc : ',' ∉ sid.toList := hgr.2.1 sid (head?_mem hsidr)
          have hbid : _next_id_from (_read_rows_loop bookLines)
              = _next_id_from (tBooks.map serializeBooking) := next_id_books_congr hbm
          have hnewrow : r.set 5 (toString (s.seats - ((digitsToNat ns.data : Nat) : Int)))
              = [s.id, s.movieId, s.audId, s.date, s.time,
                toString (s.seats - ((digitsToNat ns.data : Nat) : Int)), s.basePrice] := by
            rw [hre]
            rfl
          have hfmem : ∀ f ∈ [s.id, s.movieId, s.audId, s.date, s.time,
              toString (s.seats - ((digitsToNat ns.data : Nat) : Int)), s.basePrice],
              ',' ∉ f.toList := by
            intro f hf
            simp only [List.mem_cons, List.not_mem_nil, or_false] at hf
            rcases hf with rfl | rfl | rfl | rfl | rfl | rfl | rfl
            · exact hgr.2.1 _ (by rw [hre]; simp)
            · exact hgr.2.1 _ (by rw [hre]; simp)
            · exact hgr.2.1 _ (by rw [hre]; simp)
            · exact hgr.2.1 _ (by rw [hre]; simp)
            · exact hgr.2.1 _ (by rw [hre]; simp)
            · exact toString_int_no_comma _
            · exact hgr.2.1 _ (by rw [hre]; simp)
          have hgood2 : ∀ row ∈ (_read_rows_loop showLines).set i
              (r.set 5 (toString (s.seats - ((digitsToNat ns.data : Nat) : Int)))),
              GoodRow row := by
            intro row hrow
            rcases mem_set_cases hrow with rfl | hmem
            · rw [hnewrow]
              exact goodRow_show_fields _ _ _ _ _ _ _ hfmem
            · exact goodRow_of_read hmem
          have hshows2 : showsOfLines (((_read_rows_loop showLines).set i
              (r.set 5 (toString (s.seats - ((digitsToNat ns.data : Nat) : Int))))).map
                joinComma)
              = some (tShows.set i
                { s with seats := s.seats - ((digitsToNat ns.data : Nat) : Int) }) := by
            unfold showsOfLines
            rw [read_rows_loop_map_join hgood2]
            apply optMapList_set hsm
            rw [hnewrow]
            simp [rowToShow, pyInt?_toString]
          have hfields_nc : ∀ f ∈ [_next_id_from (_read_rows_loop bookLines), cname, sid,
              toString (((digitsToNat ns.data : Nat) : Int)), "PAID"], ',' ∉ f.toList := by
            intro f hf
            simp only [List.mem_cons, List.not_mem_nil, or_false] at hf
            rcases hf with rfl | rfl | rfl | rfl | rfl
            · exact next_id_no_comma _
            · exact sepFree_no_comma hname
            · exact hsid_nc
            · exact toString_int_no_comma _
            · exact string_lit_no_comma_PAID
          have hbl_blank : isBlank (joinComma [_next_id_from (_read_rows_loop bookLines),
              cname, sid, toString (((digitsToNat ns.data : Nat) : Int)), "PAID"])
              = false := isBlank_joinComma_two _ (by simp)
          have hbooks2 : booksOfLines (bookLines ++ [joinComma
              [_next_id_from (_read_rows_loop bookLines), cname, sid,
                toString (((digitsToNat ns.data : Nat) : Int)), "PAID"]])
              = some (tBooks ++ [⟨_next_id_from (_read_rows_loop bookLines), cname, sid,
                ((digitsToNat ns.data : Nat) : Int), "PAID"⟩]) := by
            unfold booksOfLines
            rw [read_rows_loop_append_one _ _ hbl_blank]
            rw [splitComma_joinComma _ (by simp) hfields_nc]
            apply optMapList_append_one hbm
            simp [rowToBooking, pyInt?_toString]
          have hraw : rawBook showLines bookLines sid cname ns true
              = some (.ok (_next_id_from (_read_rows_loop bookLines)),
                ((_read_rows_loop showLines).set i
                  (r.set 5 (toString (s.seats - ((digitsToNat ns.data : Nat) : Int))))).map
                    joinComma,
                bookLines ++ [joinComma [_next_id_from (_read_rows_loop bookLines), cname, sid,
                  toString (((digitsToNat ns.data : Nat) : Int)), "PAID"]]) := by
            unfold rawBook
            simp [hens, h1, hr5, hse, hlt, hpay]
          have htyped : _book_ticket_common tShows tBooks sid cname ns true
              = (.ok (_next_id_from (tBooks.map serializeBooking)),
                tShows.set i
                  { s with seats := s.seats - ((digitsToNat ns.data : Nat) : Int) },
                tBooks ++ [⟨_next_id_from (tBooks.map serializeBooking), cname, sid,
                  ((digitsToNat ns.data : Nat) : Int), "PAID"⟩]) := by
            unfold _book_ticket_common
            simp [hens, h2, hlt, hpay]
          rw [hbid] at hraw hbooks2
          refine ⟨_, hraw, ?_, ?_⟩
          · rw [htyped]
            exact hshows2
          · rw [htyped]
            exact hbooks2


lemma validate_dt_parts {date time : String} (h : _validate_date_time date time = true) :
    dateReOk date = true ∧ timeReOk time = true := by
  unfold _validate_date_time at h
  simp only [Bool.and_eq_true] at h
  exact ⟨h.1.1, h.1.2⟩

lemma rawUpdShow_sim (showLines : List String) (sid mid aid date time seats bp : String)
    (tShows : List Show)
    (hs : showsOfLines showLines = some tShows)
    (hm : sepFree mid = true) (ha : sepFree aid = true) :
    ∃ out, rawUpdShow showLines sid mid aid date time seats bp = some out ∧
      showsOfLines out.2 = some (upd_show tShows sid mid aid date time seats bp).2 := by
  have hsm : optMapList rowToShow (_read_rows_loop showLines) = some tShows := hs
  rcases enumFind_optMap (@show_find_agree sid) hsm with ⟨hn1, hn2⟩ | ⟨i, r, s, h1, h2, h3⟩
  · refine ⟨(.notFound, showLines), ?_, ?_⟩
    · unfold rawUpdShow
      simp [hn1]
    · unfold upd_show
      simp [hn2, hs]
  · cases hps : pyInt? seats with
    | none =>
      refine ⟨(.badNumeric, showLines), ?_, ?_⟩
      · unfold rawUpdShow
        simp [h1, hps]
      · unfold upd_show
        simp [h2, hps, hs]
    | some seatsI =>
      cases hbp : pyFloatOk bp with
      | false =>
        refine ⟨(.badNumeric, showLines), ?_, ?_⟩
        · unfold rawUpdShow
          simp [h1, hps, hbp]
        · unfold upd_show
          simp [h2, hps, hbp, hs]
      | true =>
        cases hdt : _validate_date_time date time with
        | false =>
          refine ⟨(.badDateTime, showLines), ?_, ?_⟩
          · unfold rawUpdShow
            simp [h1, hps, hbp, hdt]
          · unfold upd_show
            simp [h2, hps, hbp, hdt, hs]
        | true =>
          have hov := @rawOverlapExcl_corr aid date time i (_read_rows_loop showLines) tShows 0 hsm
          cases hovb : anyFrom (fun j s2 => (j != i) &&
              (s2.audId == aid && s2.date == date && s2.time == time)) 0 tShows with
          | true =>
            refine ⟨(.overlap, showLines), ?_, ?_⟩
            · unfold rawUpdShow
              rw [hovb] at hov
              simp [h1, hps, hbp, hdt, hov]
            · unfold upd_show
              simp [h2, hps, hbp, hdt, hovb, hs]
          | false =>
            rw [hovb] at hov
            have hrmem : r ∈ _read_rows_loop showLines := enumFind_mem h1
            have hgr : GoodRow r := goodRow_of_read hrmem
            have hsidr : r.head? = some sid := by
              rcases enumFind_some h1 with ⟨_, _, hp⟩
              exact eq_of_beq hp
            have hsid_nc : ',' ∉ sid.toList := hgr.2.1 sid (head?_mem hsidr)
            have hfmem : ∀ f ∈ [sid, mid, aid, date, time, toString seatsI, bp],
                ',' ∉ f.toList := by
              intro f hf
              simp only [List.mem_cons, List.not_mem_nil, or_false] at hf
              rcases hf with rfl | rfl | rfl | rfl | rfl | rfl | rfl
              · exact hsid_nc
              · exact sepFree_no_comma hm
              · exact sepFree_no_comma ha
              · exact dateReOk_no_comma (validate_dt_parts hdt).1
              · exact timeReOk_no_comma (validate_dt_parts hdt).2
              · exact toString_int_no_comma _
              · exact pyFloatOk_no_comma hbp
            have hgood2 : ∀ row ∈ (_read_rows_loop showLines).set i
                [sid, mid, aid, date, time, toString seatsI, bp], GoodRow row := by
              intro row hrow
              rcases mem_set_cases hrow with rfl | hmem
              · exact goodRow_show_fields _ _ _ _ _ _ _ hfmem
              · exact goodRow_of_read hmem
            have hshows2 : showsOfLines (((_read_rows_loop showLines).set i
                [sid, mid, aid, date, time, toString seatsI, bp]).map joinComma)
                = some (tShows.set i ⟨sid, mid, aid, date, time, seatsI, bp⟩) := by
              unfold showsOfLines
              rw [read_rows_loop_map_join hgood2]
              apply optMapList_set hsm
              simp [rowToShow, pyInt?_toString]
            refine ⟨(.ok, (((_read_rows_loop showLines).set i
                [sid, mid, aid, date, time, toString seatsI, bp]).map joinComma)), ?_, ?_⟩
            · unfold rawUpdShow
              simp [h1, hps, hbp, hdt, hov]
            · have htyped : upd_show tShows sid mid aid date time seats bp
                  = (.ok, tShows.set i ⟨sid, mid, aid, date, time, seatsI, bp⟩) := by
                unfold upd_show
                simp [h2, hps, hbp, hdt, hovb]
              rw [htyped]
              exact hshows2


lemma optMapList_mem_rev {α β : Type} {f : α → Option β} :
    ∀ {as : List α} {bs : List β}, optMapList f as = some bs →
      ∀ b ∈ bs, ∃ a ∈ as, f a = some b := by
  intro as
  induction as with
  | nil =>
    intro bs h b hb
    unfold optMapList at h
    rw [← Option.some.inj h] at hb
    simp at hb
  | cons a t ih =>
    intro bs h b hb
    rcases optMapList_cons_some h with ⟨b0, bt, hfa, hrest, rfl⟩
    rcases List.mem_cons.1 hb with rfl | hb2
    · exact ⟨a, List.mem_cons_self a t, hfa⟩
    · rcases ih hrest b hb2 with ⟨a2, ha2, hfa2⟩
      exact ⟨a2, List.mem_cons_of_mem a ha2, hfa2⟩

lemma rawAddShow_sim (movieLines audLines showLines : List String)
    (mid aid date time seats bp : String)
    (tMovies : List Movie) (tShows : List Show)
    (hmv : moviesOfLines movieLines = some tMovies)
    (hs : showsOfLines showLines = some tShows) :
    ∃ out, rawAddShow movieLines audLines showLines mid aid date time seats bp = some out ∧
      showsOfLines out.2
        = some (add_show tMovies (audsOfLines audLines) tShows mid aid date time seats bp).2 := by
  have hsm : optMapList rowToShow (_read_rows_loop showLines) = some tShows := hs
  have hmm : optMapList rowToMovie (_read_rows_loop movieLines) = some tMovies := hmv
  cases hps : pyInt? seats with
  | none =>
    refine ⟨(.badNumeric, showLines), ?_, ?_⟩
    · unfold rawAddShow
      simp [hps]
    · unfold add_show
      simp [hps, hs]
  | some seatsI =>
    cases hbp : pyFloatOk bp with
    | false =>
      refine ⟨(.badNumeric, showLines), ?_, ?_⟩
      · unfold rawAddShow
        simp [hps, hbp]
      · unfold add_show
        simp [hps, hbp, hs]
    | true =>
      cases hdt : _validate_date_time date time with
      | false =>
        refine ⟨(.badDateTime, showLines), ?_, ?_⟩
        · unfold rawAddShow
          simp [hps, hbp, hdt]
        · unfold add_show
          simp [hps, hbp, hdt, hs]
      | true =>
        have hma := @rawMovieActive_corr mid (_read_rows_loop movieLines) tMovies hmm
        cases hmab : tMovies.any (fun m => m.id == mid && m.status == "Active") with
        | false =>
          rw [hmab] at hma
          refine ⟨(.badMovie, showLines), ?_, ?_⟩
          · unfold rawAddShow
            simp [hps, hbp, hdt, hma]
          · unfold add_show
            simp [hps, hbp, hdt, hmab, hs]
        | true =>
          rw [hmab] at hma
          have haud := @aud_any_corr aid (_read_rows_loop audLines)
          cases haudb : (audsOfLines audLines).any (fun a => a.id == aid) with
          | false =>
            rw [show (_read_rows_loop audLines).filterMap rowToAud = audsOfLines audLines
              from rfl, haudb] at haud
            refine ⟨(.noAud, showLines), ?_, ?_⟩
            · unfold rawAddShow
              simp [hps, hbp, hdt, hma, haud]
            · unfold add_show
              simp [hps, hbp, hdt, hmab, haudb, hs]
          | true =>
            rw [show (_read_rows_loop audLines).filterMap rowToAud = audsOfLines audLines
              from rfl, haudb] at haud
            have hov := @rawOverlapAny_corr aid date time (_read_rows_loop showLines) tShows hsm
            cases hovb : tShows.any
                (fun s => s.audId == aid && s.date == date && s.time == time) with
            | true =>
              rw [hovb] at hov
              refine ⟨(.overlap, showLines), ?_, ?_⟩
              · unfold rawAddShow
                simp [hps, hbp, hdt, hma, haud, hov]
              · unfold add_show
                simp [hps, hbp, hdt, hmab, haudb, hovb, hs]
            | false =>
              rw [hovb] at hov
              have hmid_nc : ',' ∉ mid.toList := by
                rcases List.any_eq_true.1 hmab with ⟨m, hmmem, hmp⟩
                simp only [Bool.and_eq_true, beq_iff_eq] at hmp
                rcases optMapList_mem_rev hmm m hmmem with ⟨mr, hmrmem, hmr⟩
                have : mid ∈ mr := by
                  rw [rowToMovie_some hmr, ← hmp.1]
                  simp
                exact (goodRow_of_read hmrmem).2.1 mid this
              have haid_nc : ',' ∉ aid.toList := by
                rcases List.any_eq_true.1 haudb with ⟨a, hamem, hap⟩
                simp only [beq_iff_eq] at hap
                rcases List.mem_filterMap.1 hamem with ⟨ar, harmem, har⟩
                have : aid ∈ ar := by
                  unfold rowToAud at har
                  match ar, har with
                  | i :: nm :: rest, har =>
                    rw [show i = a.id from congrArg Aud.id (Option.some.inj har), ← hap]
                    simp
                exact (goodRow_of_read harmem).2.1 aid this
              have hfmem : ∀ f ∈ [_next_id_from (_read_rows_loop showLines), mid, aid,
                  date, time, toString seatsI, bp], ',' ∉ f.toList := by
                intro f hf
                simp only [List.mem_cons, List.not_mem_nil, or_false] at hf
                rcases hf with rfl | rfl | rfl | rfl | rfl | rfl | rfl
                · exact next_id_no_comma _
                · exact hmid_nc
                · exact haid_nc
                · exact dateReOk_no_comma (validate_dt_parts hdt).1
                · exact timeReOk_no_comma (validate_dt_parts hdt).2
                · exact toString_int_no_comma _
                · exact pyFloatOk_no_comma hbp
              have hnl_blank : isBlank (joinComma [_next_id_from (_read_rows_loop showLines),
                  mid, aid, date, time, toString seatsI, bp]) = false :=
                isBlank_joinComma_two _ (by simp)
              have hnid := next_id_shows_congr hsm
              have hshows2 : showsOfLines (showLines ++ [joinComma
                  [_next_id_from (_read_rows_loop showLines), mid, aid, date, time,
                    toString seatsI, bp]])
                  = some (tShows ++ [⟨_next_id_from (_read_rows_loop showLines), mid, aid,
                    date, time, seatsI, bp⟩]) := by
                unfold showsOfLines
                rw [read_rows_loop_append_one _ _ hnl_blank]
                rw [splitComma_joinComma _ (by simp) hfmem]
                apply optMapList_append_one hsm
                simp [rowToShow, pyInt?_toString]
              have hraw : rawAddShow movieLines audLines showLines mid aid date time seats bp
                  = some (.ok (_next_id_from (_read_rows_loop showLines)),
                    showLines ++ [joinComma [_next_id_from (_read_rows_loop showLines), mid,
                      aid, date, time, toString seatsI, bp]]) := by
                unfold rawAddShow
                simp [hps, hbp, hdt, hma, haud, hov]
              have htyped : add_show tMovies (audsOfLines audLines) tShows
                  mid aid date time seats bp
                  = (.ok (_next_id_from (tShows.map serializeShow)),
                    tShows ++ [⟨_next_id_from (tShows.map serializeShow), mid, aid,
                      date, time, seatsI, bp⟩]) := by
                unfold add_show
                simp [hps, hbp, hdt, hmab, haudb, hovb]
              rw [hnid] at hraw hshows2
              refine ⟨_, hraw, ?_⟩
              rw [htyped]
              exact hshows2


lemma rawCmChoice_sim (bookLines showLines : List String) (bid : String)
    (owner : Option String) (choice : Choice) (bidx : Nat) (br : List String) (b : Booking)
    (tShows : List Show) (tBooks : List Booking)
    (hsm : optMapList rowToShow (_read_rows_loop showLines) = some tShows)
    (hbm : optMapList rowToBooking (_read_rows_loop bookLines) = some tBooks)
    (h1 : enumFind (fun r => r.head? == some bid) (_read_rows_loop bookLines) = some (bidx, br))
    (h2 : enumFind (fun b2 => b2.id == bid) tBooks = some (bidx, b))
    (h3 : rowToBooking br = some b)
    (hmis : ownerMismatch owner b = false) :
    ∃ out, _rawCmChoice bookLines showLines bidx br choice = some out ∧
      booksOfLines out.2.1 = some (_cancel_or_modify_common tBooks tShows bid owner choice).2.1 ∧
      showsOfLines out.2.2 = some (_cancel_or_modify_common tBooks tShows bid owner choice).2.2
    := by
  rcases rowToBooking_some h3 with ⟨se, hbre, hbse⟩
  have hb2 : br[2]? = some b.showId := by rw [hbre]; rfl
  have hb3 : br[3]? = some se := by rw [hbre]; rfl
  have hmemb : br ∈ _read_rows_loop bookLines := enumFind_mem h1
  have hgb : GoodRow br := goodRow_of_read hmemb
  have hbooks_erase : booksOfLines (((_read_rows_loop bookLines).eraseIdx bidx).map joinComma)
      = some (tBooks.eraseIdx bidx) := by
    unfold booksOfLines
    rw [read_rows_loop_map_join
      (fun r hr => goodRow_of_read (List.eraseIdx_subset _ _ hr))]
    exact optMapList_eraseIdx hbm
  rcases enumFind_optMap (@show_find_agree b.showId) hsm with ⟨hn1, hn2⟩ |
    ⟨sidx, sr, s, hs1, hs2, hs3⟩
  · cases choice with
    | cancel =>
      have htypedC : _cancel_or_modify_common tBooks tShows bid owner .cancel
          = (.cancelled, tBooks.eraseIdx bidx, tShows) := by
        unfold _cancel_or_modify_common
        simp [h2, hmis, hn2]
      refine ⟨(.cancelled, ((_read_rows_loop bookLines).eraseIdx bidx).map joinComma,
        showLines), ?_, ?_, ?_⟩
      · unfold _rawCmChoice
        simp [hb2, hn1]
      · rw [htypedC]
        exact hbooks_erase
      · rw [htypedC]
        exact hsm
    | modify ns =>
      cases hens : _ensure_positive_int ns with
      | false =>
        have htypedM : _cancel_or_modify_common tBooks tShows bid owner (.modify ns)
            = (.badSeats, tBooks, tShows) := by
          unfold _cancel_or_modify_common
          simp [h2, hmis, hens]
        refine ⟨(.badSeats, bookLines, showLines), ?_, ?_, ?_⟩
        · unfold _rawCmChoice
          simp [hb2, hens, hn1]
        · rw [htypedM]
          exact hbm
        · rw [htypedM]
          exact hsm
      | true =>
        have htypedM : _cancel_or_modify_common tBooks tShows bid owner (.modify ns)
            = (.showMissing, tBooks, tShows) := by
          unfold _cancel_or_modify_common
          simp [h2, hmis, hens, hn2]
        refine ⟨(.showMissing, bookLines, showLines), ?_, ?_, ?_⟩
        · unfold _rawCmChoice
          simp [hb2, hens, hb3, hbse, hn1]
        · rw [htypedM]
          exact hbm
        · rw [htypedM]
          exact hsm
    | other =>
      have htypedO : _cancel_or_modify_common tBooks tShows bid owner .other
          = (.badChoice, tBooks, tShows) := by
        unfold _cancel_or_modify_common
        simp [h2, hmis]
      refine ⟨(.badChoice, bookLines, showLines), ?_, ?_, ?_⟩
      · unfold _rawCmChoice
        simp [hb2, hn1]
      · rw [htypedO]
        exact hbm
      · rw [htypedO]
        exact hsm
  · rcases rowToShow_some hs3 with ⟨sse, hsre, hsse⟩
    have hs5 : sr[5]? = some sse := by rw [hsre]; rfl
    have hmems : sr ∈ _read_rows_loop showLines := enumFind_mem hs1
    have hgs : GoodRow sr := goodRow_of_read hmems
    cases choice with
    | cancel =>
      have hnewrow : sr.set 5 (toString (s.seats + b.seats))
          = [s.id, s.movieId, s.audId, s.date, s.time,
            toString (s.seats + b.seats), s.basePrice] := by
        rw [hsre]
        rfl
      have hfmem : ∀ f ∈ [s.id, s.movieId, s.audId, s.date, s.time,
          toString (s.seats + b.seats), s.basePrice], ',' ∉ f.toList := by
        intro f hf
        simp only [List.mem_cons, List.not_mem_nil, or_false] at hf
        rcases hf with rfl | rfl | rfl | rfl | rfl | rfl | rfl
        · exact hgs.2.1 _ (by rw [hsre]; simp)
        · exact hgs.2.1 _ (by rw [hsre]; simp)
        · exact hgs.2.1 _ (by rw [hsre]; simp)
        · exact hgs.2.1 _ (by rw [hsre]; simp)
        · exact hgs.2.1 _ (by rw [hsre]; simp)
        · exact toString_int_no_comma _
        · exact hgs.2.1 _ (by rw [hsre]; simp)
      have hgood2 : ∀ row ∈ (_read_rows_loop showLines).set sidx
          (sr.set 5 (toString (s.seats + b.seats))), GoodRow row := by
        intro row hrow
        rcases mem_set_cases hrow with rfl | hmem
        · rw [hnewrow]
          exact goodRow_show_fields _ _ _ _ _ _ _ hfmem
        · exact goodRow_of_read hmem
      have hshows2 : showsOfLines (((_read_rows_loop showLines).set sidx
          (sr.set 5 (toString (s.seats + b.seats)))).map joinComma)
          = some (tShows.set sidx { s with seats := s.seats + b.seats }) := by
        unfold showsOfLines
        rw [read_rows_loop_map_join hgood2]
        apply optMapList_set hsm
        rw [hnewrow]
        simp [rowToShow, pyInt?_toString]
      have htypedC : _cancel_or_modify_common tBooks tShows bid owner .cancel
          = (.cancelled, tBooks.eraseIdx bidx,
            tShows.set sidx { s with seats := s.seats + b.seats }) := by
        unfold _cancel_or_modify_common
        simp [h2, hmis, hs2]
      refine ⟨(.cancelled, ((_read_rows_loop bookLines).eraseIdx bidx).map joinComma,
        ((_read_rows_loop showLines).set sidx
          (sr.set 5 (toString (s.seats + b.seats)))).map joinComma), ?_, ?_, ?_⟩
      · unfold _rawCmChoice
        simp [hb2, hs1, hs5, hsse, hb3, hbse]
      · rw [htypedC]
        exact hbooks_erase
      · rw [htypedC]
        exact hshows2
    | modify ns =>
      cases hens : _ensure_positive_int ns with
      | false =>
        have htypedM : _cancel_or_modify_common tBooks tShows bid owner (.modify ns)
            = (.badSeats, tBooks, tShows) := by
          unfold _cancel_or_modify_common
          simp [h2, hmis, hens]
        refine ⟨(.badSeats, bookLines, showLines), ?_, ?_, ?_⟩
        · unfold _rawCmChoice
          simp [hb2, hens, hs1]
        · rw [htypedM]
          exact hbm
        · rw [htypedM]
          exact hsm
      | true =>
        by_cases hneg : s.seats - (((digitsToNat ns.data : Nat) : Int) - b.seats) < 0
        · have htypedM : _cancel_or_modify_common tBooks tShows bid owner (.modify ns)
              = (.notEnough, tBooks, tShows) := by
            unfold _cancel_or_modify_common
            simp [h2, hmis, hens, hs2, hneg]
          refine ⟨(.notEnough, bookLines, showLines), ?_, ?_, ?_⟩
          · unfold _rawCmChoice
            simp [hb2, hens, hb3, hbse, hs1, hs5, hsse, hneg]
          · rw [htypedM]
            exact hbm
          · rw [htypedM]
            exact hsm
        · have hnewbr : br.set 3 (toString (((digitsToNat ns.data : Nat) : Int)))
              = [b.id, b.customer, b.showId,
                toString (((digitsToNat ns.data : Nat) : Int)), b.status] := by
            rw [hbre]
            rfl
          have hbfmem : ∀ f ∈ [b.id, b.customer, b.showId,
              toString (((digitsToNat ns.data : Nat) : Int)), b.status], ',' ∉ f.toList := by
            intro f hf
            simp only [List.mem_cons, List.not_mem_nil, or_false] at hf
            rcases hf with rfl | rfl | rfl | rfl | rfl
            · exact hgb.2.1 _ (by rw [hbre]; simp)
            · exact hgb.2.1 _ (by rw [hbre]; simp)
            · exact hgb.2.1 _ (by rw [hbre]; simp)
            · exact toString_int_no_comma _
            · exact hgb.2.1 _ (by rw [hbre]; simp)
          have hbgood2 : ∀ row ∈ (_read_rows_loop bookLines).set bidx
              (br.set 3 (toString (((digitsToNat ns.data : Nat) : Int)))), GoodRow row := by
            intro row hrow
            rcases mem_set_cases hrow with rfl | hmem
            · rw [hnewbr]
              exact goodRow_book_fields _ _ _ _ _ hbfmem
            · exact goodRow_of_read hmem
          have hbooks2 : booksOfLines (((_read_rows_loop bookLines).set bidx
              (br.set 3 (toString (((digitsToNat ns.data : Nat) : Int))))).map joinComma)
              = some (tBooks.set bidx { b with seats := ((digitsToNat ns.data : Nat) : Int) })
              := by
            unfold booksOfLines
            rw [read_rows_loop_map_join hbgood2]
            apply optMapList_set hbm
            rw [hnewbr]
            simp [rowToBooking, pyInt?_toString]
          have hnewsr : sr.set 5 (toString (s.seats -
              (((digitsToNat ns.data : Nat) : Int) - b.seats)))
              = [s.id, s.movieId, s.audId, s.date, s.time,
                toString (s.seats - (((digitsToNat ns.data : Nat) : Int) - b.seats)),
                s.basePrice] := by
            rw [hsre]
            rfl
          have hsfmem : ∀ f ∈ [s.id, s.movieId, s.audId, s.date, s.time,
              toString (s.seats - (((digitsToNat ns.data : Nat) : Int) - b.seats)),
              s.basePrice], ',' ∉ f.toList := by
            intro f hf
            simp only [List.mem_cons, List.not_mem_nil, or_false] at hf
            rcases hf with rfl | rfl | rfl | rfl | rfl | rfl | rfl
            · exact hgs.2.1 _ (by rw [hsre]; simp)
            · exact hgs.2.1 _ (by rw [hsre]; simp)
            · exact hgs.2.1 _ (by rw [hsre]; simp)
            · exact hgs.2.1 _ (by rw [hsre]; simp)
            · exact hgs.2.1 _ (by rw [hsre]; simp)
            · exact toString_int_no_comma _
            · exact hgs.2.1 _ (by rw [hsre]; simp)
          have hsgood2 : ∀ row ∈ (_read_rows_loop showLines).set sidx
              (sr.set 5 (toString (s.seats -
                (((digitsToNat ns.data : Nat) : Int) - b.seats)))), GoodRow row := by
            intro row hrow
            rcases mem_set_cases hrow with rfl | hmem
            · rw [hnewsr]
              exact goodRow_show_fields _ _ _ _ _ _ _ hsfmem
            · exact goodRow_of_read hmem
          have hshows2 : showsOfLines (((_read_rows_loop showLines).set sidx
              (sr.set 5 (toString (s.seats -
                (((digitsToNat ns.data : Nat) : Int) - b.seats))))).map joinComma)
              = some (tShows.set sidx { s with seats := s.seats -
                (((digitsToNat ns.data : Nat) : Int) - b.seats) }) := by
            unfold showsOfLines
            rw [read_rows_loop_map_join hsgood2]
            apply optMapList_set hsm
            rw [hnewsr]
            simp [rowToShow, pyInt?_toString]
          have htypedM : _cancel_or_modify_common tBooks tShows bid owner (.modify ns)
              = (.modified,
                tBooks.set bidx { b with seats := ((digitsToNat ns.data : Nat) : Int) },
                tShows.set sidx { s with seats := s.seats -
                  (((digitsToNat ns.data : Nat) : Int) - b.seats) }) := by
            unfold _cancel_or_modify_common
            simp [h2, hmis, hens, hs2, hneg]
          refine ⟨(.modified,
            ((_read_rows_loop bookLines).set bidx
              (br.set 3 (toString (((digitsToNat ns.data : Nat) : Int))))).map joinComma,
            ((_read_rows_loop showLines).set sidx
              (sr.set 5 (toString (s.seats -
                (((digitsToNat ns.data : Nat) : Int) - b.seats))))).map joinComma),
            ?_, ?_, ?_⟩
          · unfold _rawCmChoice
            simp [hb2, hens, hb3, hbse, hs1, hs5, hsse, hneg]
          · rw [htypedM]
            exact hbooks2
          · rw [htypedM]
            exact hshows2
    | other =>
      have htypedO : _cancel_or_modify_common tBooks tShows bid owner .other
          = (.badChoice, tBooks, tShows) := by
        unfold _cancel_or_modify_common
        simp [h2, hmis]
      refine ⟨(.badChoice, bookLines, showLines), ?_, ?_, ?_⟩
      · unfold _rawCmChoice
        simp [hb2, hs1]
      · rw [htypedO]
        exact hbm
      · rw [htypedO]
        exact hsm

lemma rawCm_sim (bookLines showLines : List String) (bid : String) (owner : Option String)
    (choice : Choice) (tShows : List Show) (tBooks : List Booking)
    (hs : showsOfLines showLines = some tShows)
    (hb : booksOfLines bookLines = some tBooks) :
    ∃ out, rawCm bookLines showLines bid owner choice = some out ∧
      booksOfLines out.2.1 = some (_cancel_or_modify_common tBooks tShows bid owner choice).2.1 ∧
      showsOfLines out.2.2 = some (_cancel_or_modify_common tBooks tShows bid owner choice).2.2
    := by
  have hsm : optMapList rowToShow (_read_rows_loop showLines) = some tShows := hs
  have hbm : optMapList rowToBooking (_read_rows_loop bookLines) = some tBooks := hb
  rcases enumFind_optMap (@book_find_agree bid) hbm with ⟨hn1, hn2⟩ | ⟨bidx, br, b, h1, h2, h3⟩
  · have htyped : _cancel_or_modify_common tBooks tShows bid owner choice
        = (.notFound, tBooks, tShows) := by
      unfold _cancel_or_modify_common
      simp [hn2]
    refine ⟨(.notFound, bookLines, showLines), ?_, ?_, ?_⟩
    · unfold rawCm
      simp [hn1]
    · rw [htyped]
      exact hb
    · rw [htyped]
      exact hs
  · rcases rowToBooking_some h3 with ⟨se, hbre, hbse⟩
    have hb1 : br[1]? = some b.customer := by rw [hbre]; rfl
    cases owner with
    | none =>
      have heq : rawCm bookLines showLines bid none choice
          = _rawCmChoice bookLines showLines bidx br choice := by
        unfold rawCm
        simp [h1]
      rw [heq]
      exact rawCmChoice_sim bookLines showLines bid none choice bidx br b tShows tBooks
        hsm hbm h1 h2 h3 rfl
    | some o =>
      cases hlow : (lowerStr b.customer != lowerStr o : Bool) with
      | true =>
        have htyped : _cancel_or_modify_common tBooks tShows bid (some o) choice
            = (.forbidden, tBooks, tShows) := by
          unfold _cancel_or_modify_common
          simp [h2, ownerMismatch, hlow]
        refine ⟨(.forbidden, bookLines, showLines), ?_, ?_, ?_⟩
        · unfold rawCm
          simp [h1, hb1, hlow]
        · rw [htyped]
          exact hb
        · rw [htyped]
          exact hs
      | false =>
        have heq : rawCm bookLines showLines bid (some o) choice
            = _rawCmChoice bookLines showLines bidx br choice := by
          unfold rawCm
          simp [h1, hb1, hlow]
        rw [heq]
        exact rawCmChoice_sim bookLines showLines bid (some o) choice bidx br b tShows tBooks
          hsm hbm h1 h2 h3 (by simp [ownerMismatch, hlow])


/-- One raw operation with separator-free inputs on a well-formed store
neither crashes nor breaks well-formedness, and its result parses to exactly
the typed operation's result. -/
lemma rawApplyOp_sim (fs : Files) (op : Op) (tMovies : List Movie) (tShows : List Show)
    (tBooks : List Booking)
    (hmv : moviesOfLines fs.movies = some tMovies)
    (hs : showsOfLines fs.shows = some tShows)
    (hb : booksOfLines fs.books = some tBooks)
    (hop : sepFreeInputs op = true) :
    ∃ fs2, rawApplyOp fs op = some fs2 ∧ fs2.movies = fs.movies ∧ fs2.auds = fs.auds ∧
      showsOfLines fs2.shows
        = some (applyOp ⟨tMovies, audsOfLines fs.auds, tShows, tBooks⟩ op).shows ∧
      booksOfLines fs2.books
        = some (applyOp ⟨tMovies, audsOfLines fs.auds, tShows, tBooks⟩ op).books := by
  cases op with
  | addShow mid aid date time seats bp =>
    rcases rawAddShow_sim fs.movies fs.auds fs.shows mid aid date time seats bp
      tMovies tShows hmv hs with ⟨out, hraw, hsh⟩
    refine ⟨{ fs with shows := out.2 }, ?_, rfl, rfl, ?_, ?_⟩
    · simp [rawApplyOp, hraw]
    · simpa [applyOp] using hsh
    · simpa [applyOp] using hb
  | updShow sid mid aid date time seats bp =>
    unfold sepFreeInputs at hop
    simp only [Bool.and_eq_true] at hop
    rcases rawUpdShow_sim fs.shows sid mid aid date time seats bp tShows hs hop.1 hop.2
      with ⟨out, hraw, hsh⟩
    refine ⟨{ fs with shows := out.2 }, ?_, rfl, rfl, ?_, ?_⟩
    · simp [rawApplyOp, hraw]
    · simpa [applyOp] using hsh
    · simpa [applyOp] using hb
  | book sid cname ns payOk =>
    unfold sepFreeInputs at hop
    rcases rawBook_sim fs.shows fs.books sid cname ns payOk tShows tBooks hs hb hop
      with ⟨out, hraw, hsh, hbk⟩
    refine ⟨{ fs with shows := out.2.1, books := out.2.2 }, ?_, rfl, rfl, ?_, ?_⟩
    · simp [rawApplyOp, hraw]
    · simpa [applyOp] using hsh
    · simpa [applyOp] using hbk
  | cm bid owner choice =>
    rcases rawCm_sim fs.books fs.shows bid owner choice tShows tBooks hs hb
      with ⟨out, hraw, hbk, hsh⟩
    refine ⟨{ fs with books := out.2.1, shows := out.2.2 }, ?_, rfl, rfl, ?_, ?_⟩
    · simp [rawApplyOp, hraw]
    · simpa [applyOp] using hsh
    · simpa [applyOp] using hbk

/-- A sequence of raw operations with separator-free inputs on a well-formed
store refines the typed sequence: no crash, and the shows/books files parse
to the typed stores throughout. -/
lemma rawApplyOps_sim : ∀ (ops : List Op) (fs : Files) (tMovies : List Movie)
    (tShows : List Show) (tBooks : List Booking),
    moviesOfLines fs.movies = some tMovies →
    showsOfLines fs.shows = some tShows →
    booksOfLines fs.books = some tBooks →
    (∀ op ∈ ops, sepFreeInputs op = true) →
    ∃ fs2, rawApplyOps fs ops = some fs2 ∧
      moviesOfLines fs2.movies = some tMovies ∧
      showsOfLines fs2.shows
        = some (applyOps ⟨tMovies, audsOfLines fs.auds, tShows, tBooks⟩ ops).shows ∧
      booksOfLines fs2.books
        = some (applyOps ⟨tMovies, audsOfLines fs.auds, tShows, tBooks⟩ ops).books := by
  intro ops
  induction ops with
  | nil =>
    intro fs tMovies tShows tBooks hmv hs hb _
    exact ⟨fs, rfl, hmv, hs, hb⟩
  | cons op rest ih =>
    intro fs tMovies tShows tBooks hmv hs hb hops
    rcases rawApplyOp_sim fs op tMovies tShows tBooks hmv hs hb
      (hops op (List.mem_cons_self op rest)) with ⟨fs1, hraw1, hmv1, hau1, hsh1, hbk1⟩
    rcases ih fs1 tMovies
      (applyOp ⟨tMovies, audsOfLines fs.auds, tShows, tBooks⟩ op).shows
      (applyOp ⟨tMovies, audsOfLines fs.auds, tShows, tBooks⟩ op).books
      (by rw [hmv1]; exact hmv) hsh1 hbk1 (fun o ho => hops o (List.mem_cons_of_mem op ho))
      with ⟨fs2, hraw2, hmv2, hsh2, hbk2⟩
    have hst : (⟨tMovies, audsOfLines fs.auds,
        (applyOp ⟨tMovies, audsOfLines fs.auds, tShows, tBooks⟩ op).shows,
        (applyOp ⟨tMovies, audsOfLines fs.auds, tShows, tBooks⟩ op).books⟩ : St)
        = applyOp ⟨tMovies, audsOfLines fs.auds, tShows, tBooks⟩ op := by
      cases op <;> rfl
    refine ⟨fs2, ?_, hmv2, ?_, ?_⟩
    · unfold rawApplyOps
      rw [hraw1]
      exact hraw2
    · rw [hsh2, hau1, hst]
      rfl
    · rw [hbk2, hau1, hst]
      rfl


/-! ### Claims C1-C3 over the persisted CSV state -/

/-- Claim C1 (amended): starting from well-formed store files whose parsed
showtime ids are pairwise distinct, where every showtime's `remainingSeats`
plus the booked seats referencing it equals its fixed total `T`, every
sequence of booking-ledger operations whose free-text inputs carry no field
separator runs without crashing and preserves the equality in the files'
parsed stores.  (With duplicate showtime ids a booking breaks the equality;
a customer name carrying the separator shifts the booking row's fields on
the next read and breaks it too, so both hypotheses are required.) -/
theorem c1_seat_conservation (T : String → Int) (fs : Files) (ops : List Op)
    (tMovies : List Movie) (tShows : List Show) (tBooks : List Booking)
    (hmv : moviesOfLines fs.movies = some tMovies)
    (hsh : showsOfLines fs.shows = some tShows)
    (hbk : booksOfLines fs.books = some tBooks)
    (hops : ∀ op ∈ ops, isLedgerOp op = true ∧ sepFreeInputs op = true)
    (hnd : (tShows.map Show.id).Nodup)
    (hc : ConservedWith T tShows tBooks) :
    ∃ fs2 tShows2 tBooks2, rawApplyOps fs ops = some fs2 ∧
      showsOfLines fs2.shows = some tShows2 ∧ booksOfLines fs2.books = some tBooks2 ∧
      ConservedWith T tShows2 tBooks2 := by
  rcases rawApplyOps_sim ops fs tMovies tShows tBooks hmv hsh hbk
    (fun op ho => (hops op ho).2) with ⟨fs2, hraw, _, hsh2, hbk2⟩
  refine ⟨fs2, _, _, hraw, hsh2, hbk2, ?_⟩
  exact applyOps_ledger_conserved T ⟨tMovies, audsOfLines fs.auds, tShows, tBooks⟩ ops
    (fun op ho => (hops op ho).1) hnd hc

/-- Witness for C1: a concrete run on the files (book two seats, then the
owner cancels) satisfies every hypothesis and keeps remaining plus booked
equal to the original total 5. -/
theorem c1_seat_conservation_witness :
    (moviesOfLines ([] : List String) = some [] ∧
      showsOfLines ["1,m,A1,2025-01-01,10:00,5,9"]
        = some [⟨"1", "m", "A1", "2025-01-01", "10:00", 5, "9"⟩] ∧
      booksOfLines ([] : List String) = some [] ∧
      (∀ op ∈ ([Op.book "1" "alice" "2" true,
          Op.cm "1" (some "ALICE") Choice.cancel] : List Op),
        isLedgerOp op = true ∧ sepFreeInputs op = true) ∧
      (([⟨"1", "m", "A1", "2025-01-01", "10:00", 5, "9"⟩] : List Show).map Show.id).Nodup ∧
      ConservedWith (fun _ => 5) [⟨"1", "m", "A1", "2025-01-01", "10:00", 5, "9"⟩] []) ∧
    ∃ fs2 tShows2 tBooks2,
      rawApplyOps ⟨[], [], ["1,m,A1,2025-01-01,10:00,5,9"], []⟩
        [Op.book "1" "alice" "2" true, Op.cm "1" (some "ALICE") Choice.cancel] = some fs2 ∧
      showsOfLines fs2.shows = some tShows2 ∧ booksOfLines fs2.books = some tBooks2 ∧
      ConservedWith (fun _ => 5) tShows2 tBooks2 :=
  ⟨by decide,
    c1_seat_conservation (fun _ => 5) ⟨[], [], ["1,m,A1,2025-01-01,10:00,5,9"], []⟩
      [Op.book "1" "alice" "2" true, Op.cm "1" (some "ALICE") Choice.cancel]
      [] [⟨"1", "m", "A1", "2025-01-01", "10:00", 5, "9"⟩] []
      (by decide) (by decide) (by decide) (by decide) (by decide) (by decide)⟩

/-- Counterexample to C1 as stated, at the files the program persists.
First, duplicate showtime ids: a store of two show rows sharing id "1" (each
created with total 5, so the equality holds) after one createBooking of 2
seats parses to stores in which the booking counts against both rows but only
the first was decremented.  Second, the field separator: a createBooking with
customer name "a,b" appends the row `1,a,b,s1,2,PAID`; its re-split shifts
every field, so the following cancelBooking reads showtime id "b", finds no
showtime and removes the booking without restoring the 2 seats, leaving a
fully parseable store with remaining 3 and no bookings — conservation against
the creation total 5 is broken with no duplicate ids anywhere. -/
theorem c1_counterexample :
    (ConservedWith (fun _ => 5)
        [⟨"1", "1", "A1", "2025-01-01", "10:00", 5, "9"⟩,
          ⟨"1", "1", "A1", "2025-01-02", "10:00", 5, "9"⟩] [] ∧
      rawApplyOps ⟨[], [], ["1,1,A1,2025-01-01,10:00,5,9", "1,1,A1,2025-01-02,10:00,5,9"], []⟩
          [Op.book "1" "alice" "2" true]
        = some ⟨[], [], ["1,1,A1,2025-01-01,10:00,3,9", "1,1,A1,2025-01-02,10:00,5,9"],
          ["1,alice,1,2,PAID"]⟩ ∧
      showsOfLines ["1,1,A1,2025-01-01,10:00,3,9", "1,1,A1,2025-01-02,10:00,5,9"]
        = some [⟨"1", "1", "A1", "2025-01-01", "10:00", 3, "9"⟩,
          ⟨"1", "1", "A1", "2025-01-02", "10:00", 5, "9"⟩] ∧
      booksOfLines ["1,alice,1,2,PAID"] = some [⟨"1", "alice", "1", 2, "PAID"⟩] ∧
      ¬ ConservedWith (fun _ => 5)
        [⟨"1", "1", "A1", "2025-01-01", "10:00", 3, "9"⟩,
          ⟨"1", "1", "A1", "2025-01-02", "10:00", 5, "9"⟩]
        [⟨"1", "alice", "1", 2, "PAID"⟩]) ∧
    (ConservedWith (fun _ => 5) [⟨"s1", "m1", "A1", "2025-01-01", "10:00", 5, "9"⟩] [] ∧
      (([⟨"s1", "m1", "A1", "2025-01-01", "10:00", 5, "9"⟩] : List Show).map Show.id).Nodup ∧
      (∀ op ∈ ([Op.book "s1" "a,b" "2" true, Op.cm "1" none Choice.cancel] : List Op),
        isLedgerOp op = true) ∧
      rawApplyOps ⟨[], [], ["s1,m1,A1,2025-01-01,10:00,5,9"], []⟩
          [Op.book "s1" "a,b" "2" true, Op.cm "1" none Choice.cancel]
        = some ⟨[], [], ["s1,m1,A1,2025-01-01,10:00,3,9"], []⟩ ∧
      showsOfLines ["s1,m1,A1,2025-01-01,10:00,3,9"]
        = some [⟨"s1", "m1", "A1", "2025-01-01", "10:00", 3, "9"⟩] ∧
      booksOfLines ([] : List String) = some [] ∧
      ¬ ConservedWith (fun _ => 5)
        [⟨"s1", "m1", "A1", "2025-01-01", "10:00", 3, "9"⟩] []) := by
  decide

/-- Claim C2 (amended): starting from well-formed store files whose parsed
remaining-seat and booked seat counts are all nonnegative, any sequence of
the five core operations whose parsed seats inputs are nonnegative and whose
free-text inputs carry no field separator runs without crashing and keeps
every seat count in the files' parsed stores nonnegative.  (createShowtime
and updateShowtime write any parsed seats value through with no sign check,
and a separator-carrying input shifts a written row's fields so that a
negative number lands in a seats column, so both hypotheses are required.) -/
theorem c2_nonneg_reachable (fs : Files) (ops : List Op)
    (tMovies : List Movie) (tShows : List Show) (tBooks : List Booking)
    (hmv : moviesOfLines fs.movies = some tMovies)
    (hsh : showsOfLines fs.shows = some tShows)
    (hbk : booksOfLines fs.books = some tBooks)
    (hops : ∀ op ∈ ops, seatInputOk op = true ∧ sepFreeInputs op = true)
    (h : NonNegSeats ⟨tMovies, audsOfLines fs.auds, tShows, tBooks⟩) :
    ∃ fs2 tShows2 tBooks2, rawApplyOps fs ops = some fs2 ∧
      showsOfLines fs2.shows = some tShows2 ∧ booksOfLines fs2.books = some tBooks2 ∧
      NonNegSeats ⟨tMovies, audsOfLines fs.auds, tShows2, tBooks2⟩ := by
  rcases rawApplyOps_sim ops fs tMovies tShows tBooks hmv hsh hbk
    (fun op ho => (hops op ho).2) with ⟨fs2, hraw, _, hsh2, hbk2⟩
  refine ⟨fs2, _, _, hraw, hsh2, hbk2, ?_⟩
  exact applyOps_nonneg ⟨tMovies, audsOfLines fs.auds, tShows, tBooks⟩ ops
    (fun op ho => (hops op ho).1) h

/-- Witness for C2: a concrete run through all five operations on the files
satisfies every hypothesis and keeps every parsed seat count nonnegative. -/
theorem c2_nonneg_reachable_witness :
    (moviesOfLines ["1,T,PG,120,EN,Active"] = some [⟨"1", "T", "PG", "120", "EN", "Active"⟩] ∧
      showsOfLines ([] : List String) = some [] ∧
      booksOfLines ([] : List String) = some [] ∧
      (∀ op ∈ ([Op.addShow "1" "A1" "2025-01-01" "10:00" "5" "9.5",
          Op.updShow "1" "1" "A1" "2025-01-01" "12:00" "4" "9.5",
          Op.book "1" "alice" "3" true,
          Op.cm "1" (some "alice") (Choice.modify "1"),
          Op.cm "1" none Choice.cancel] : List Op),
        seatInputOk op = true ∧ sepFreeInputs op = true) ∧
      NonNegSeats ⟨[⟨"1", "T", "PG", "120", "EN", "Active"⟩],
        audsOfLines ["A1,Main"], [], []⟩) ∧
    ∃ fs2 tShows2 tBooks2,
      rawApplyOps ⟨["1,T,PG,120,EN,Active"], ["A1,Main"], [], []⟩
          [Op.addShow "1" "A1" "2025-01-01" "10:00" "5" "9.5",
            Op.updShow "1" "1" "A1" "2025-01-01" "12:00" "4" "9.5",
            Op.book "1" "alice" "3" true,
            Op.cm "1" (some "alice") (Choice.modify "1"),
            Op.cm "1" none Choice.cancel] = some fs2 ∧
      showsOfLines fs2.shows = some tShows2 ∧ booksOfLines fs2.books = some tBooks2 ∧
      NonNegSeats ⟨[⟨"1", "T", "PG", "120", "EN", "Active"⟩],
        audsOfLines ["A1,Main"], tShows2, tBooks2⟩ :=
  ⟨by decide,
    c2_nonneg_reachable ⟨["1,T,PG,120,EN,Active"], ["A1,Main"], [], []⟩
      [Op.addShow "1" "A1" "2025-01-01" "10:00" "5" "9.5",
        Op.updShow "1" "1" "A1" "2025-01-01" "12:00" "4" "9.5",
        Op.book "1" "alice" "3" true,
        Op.cm "1" (some "alice") (Choice.modify "1"),
        Op.cm "1" none Choice.cancel]
      [⟨"1", "T", "PG", "120", "EN", "Active"⟩] [] []
      (by decide) (by decide) (by decide) (by decide) (by decide)⟩

/-- Counterexample to C2 as stated, at the files the program persists.
First, createShowtime accepts the seats input "-3" (only `int()` parsing is
checked) and persists a row whose parsed remainingSeats is -3, with no
Conflict.  Second, with a perfectly nonnegative seats input "5",
updateShowtime with movie id "x,y,z,w,-7" writes a row whose re-split puts
"-7" in the seats column (field 5) that every later read treats as the
showtime's remaining seats.  Third, a createBooking with customer name
"x,s,-7" followed by a cancelBooking reads "-7" as the booking's seat count
and restores it, driving the showtime's persisted remaining seats to -4 in a
fully parseable store. -/
theorem c2_counterexample :
    (rawApplyOps ⟨["1,T,PG,120,EN,Active"], ["A1,Main"], [], []⟩
        [Op.addShow "1" "A1" "2025-01-01" "10:00" "-3" "5"]
      = some ⟨["1,T,PG,120,EN,Active"], ["A1,Main"], ["1,1,A1,2025-01-01,10:00,-3,5"], []⟩ ∧
      showsOfLines ["1,1,A1,2025-01-01,10:00,-3,5"]
        = some [⟨"1", "1", "A1", "2025-01-01", "10:00", -3, "5"⟩] ∧
      ¬ NonNegSeats ⟨[], [], [⟨"1", "1", "A1", "2025-01-01", "10:00", -3, "5"⟩], []⟩) ∧
    (seatInputOk (Op.updShow "1" "x,y,z,w,-7" "A2" "2025-01-02" "11:00" "5" "9") = true ∧
      rawApplyOps ⟨[], [], ["1,m,A1,2025-01-01,10:00,5,9"], []⟩
          [Op.updShow "1" "x,y,z,w,-7" "A2" "2025-01-02" "11:00" "5" "9"]
        = some ⟨[], [], ["1,x,y,z,w,-7,A2,2025-01-02,11:00,5,9"], []⟩ ∧
      (_read_rows_loop ["1,x,y,z,w,-7,A2,2025-01-02,11:00,5,9"]).map (fun r => r[5]?)
        = [some "-7"] ∧
      pyInt? "-7" = some (-7)) ∧
    ((∀ op ∈ ([Op.book "s" "x,s,-7" "2" true, Op.cm "1" none Choice.cancel] : List Op),
        seatInputOk op = true) ∧
      rawApplyOps ⟨[], [], ["s,m,A1,2025-01-01,10:00,5,9"], []⟩
          [Op.book "s" "x,s,-7" "2" true, Op.cm "1" none Choice.cancel]
        = some ⟨[], [], ["s,m,A1,2025-01-01,10:00,-4,9"], []⟩ ∧
      showsOfLines ["s,m,A1,2025-01-01,10:00,-4,9"]
        = some [⟨"s", "m", "A1", "2025-01-01", "10:00", -4, "9"⟩] ∧
      ¬ NonNegSeats ⟨[], [], [⟨"s", "m", "A1", "2025-01-01", "10:00", -4, "9"⟩], []⟩) := by
  decide

/-- Claim C3 (amended): auditorium-slot uniqueness.  (1) Starting from
well-formed store files whose parsed showtimes carry pairwise-distinct
`(auditoriumId, date, time)` triples, every sequence of core operations whose
free-text inputs carry no field separator runs without crashing and preserves
that distinctness in the parsed store (an updateShowtime movie id carrying
the separator can smuggle a duplicate triple past the overlap check, so the
hypothesis is required); (2) createShowtime fails with the store unchanged
when an existing showtime has the requested triple; (3) updateShowtime runs
the same overlap check excluding only the record being updated, failing with
the store unchanged when any other record has the triple. -/
theorem c3_slot_uniqueness :
    (∀ (fs : Files) (ops : List Op) (tMovies : List Movie) (tShows : List Show)
        (tBooks : List Booking),
      moviesOfLines fs.movies = some tMovies →
      showsOfLines fs.shows = some tShows →
      booksOfLines fs.books = some tBooks →
      (∀ op ∈ ops, sepFreeInputs op = true) →
      TriplesDistinct tShows →
      ∃ fs2 tShows2, rawApplyOps fs ops = some fs2 ∧
        showsOfLines fs2.shows = some tShows2 ∧ TriplesDistinct tShows2) ∧
    (∀ (movies : List Movie) (auds : List Aud) (shows : List Show)
        (mid aid date time seats bp : String) (v : Int),
      pyInt? seats = some v → pyFloatOk bp = true → _validate_date_time date time = true →
      movies.any (fun m => m.id == mid && m.status == "Active") = true →
      auds.any (fun a => a.id == aid) = true →
      shows.any (fun s => s.audId == aid && s.date == date && s.time == time) = true →
      add_show movies auds shows mid aid date time seats bp = (.overlap, shows)) ∧
    (∀ (shows : List Show) (sid mid aid date time seats bp : String)
        (idx : Nat) (s : Show) (v : Int),
      enumFind (fun s2 => s2.id == sid) shows = some (idx, s) →
      pyInt? seats = some v → pyFloatOk bp = true → _validate_date_time date time = true →
      anyFrom (fun k s2 => (k != idx) &&
        (s2.audId == aid && s2.date == date && s2.time == time)) 0 shows = true →
      upd_show shows sid mid aid date time seats bp = (.overlap, shows)) := by
  refine ⟨?_, ?_, ?_⟩
  · intro fs ops tMovies tShows tBooks hmv hsh hbk hops hd
    rcases rawApplyOps_sim ops fs tMovies tShows tBooks hmv hsh hbk hops
      with ⟨fs2, hraw, _, hsh2, _⟩
    exact ⟨fs2, _, hraw, hsh2,
      applyOps_triples ⟨tMovies, audsOfLines fs.auds, tShows, tBooks⟩ ops hd⟩
  · intro movies auds shows mid aid date time seats bp v hpv hbp hdt hmov haud hov
    exact add_show_overlap_reject movies auds shows mid aid date time seats bp v
      hpv hbp hdt hmov haud hov
  · intro shows sid mid aid date time seats bp idx s v hfind hpv hbp hdt hov
    exact upd_show_overlap_reject shows sid mid aid date time seats bp idx s v
      hfind hpv hbp hdt hov

/-- Witness for C3: concrete instances of all three conjuncts — a raw run
that keeps the parsed triples distinct, a rejected duplicate-slot create, and
a rejected duplicate-slot update. -/
theorem c3_slot_uniqueness_witness :
    (∃ fs2 tShows2,
      rawApplyOps ⟨["1,T,PG,120,EN,Active"], ["A1,Main"], ["1,1,A1,2025-01-01,10:00,5,9"], []⟩
          [Op.addShow "1" "A1" "2025-01-01" "12:00" "5" "9"] = some fs2 ∧
      showsOfLines fs2.shows = some tShows2 ∧ TriplesDistinct tShows2) ∧
    add_show [⟨"1", "T", "PG", "120", "EN", "Active"⟩] [⟨"A1", "Main"⟩]
      [⟨"1", "1", "A1", "2025-01-01", "10:00", 5, "9"⟩]
      "1" "A1" "2025-01-01" "10:00" "7" "9"
      = (.overlap, [⟨"1", "1", "A1", "2025-01-01", "10:00", 5, "9"⟩]) ∧
    upd_show [⟨"1", "1", "A1", "2025-01-01", "10:00", 5, "9"⟩,
        ⟨"2", "1", "A1", "2025-01-01", "12:00", 5, "9"⟩]
      "1" "1" "A1" "2025-01-01" "12:00" "5" "9"
      = (.overlap, [⟨"1", "1", "A1", "2025-01-01", "10:00", 5, "9"⟩,
        ⟨"2", "1", "A1", "2025-01-01", "12:00", 5, "9"⟩]) :=
  ⟨c3_slot_uniqueness.1
      ⟨["1,T,PG,120,EN,Active"], ["A1,Main"], ["1,1,A1,2025-01-01,10:00,5,9"], []⟩
      [Op.addShow "1" "A1" "2025-01-01" "12:00" "5" "9"]
      [⟨"1", "T", "PG", "120", "EN", "Active"⟩]
      [⟨"1", "1", "A1", "2025-01-01", "10:00", 5, "9"⟩] []
      (by decide) (by decide) (by decide) (by decide) (by decide),
    c3_slot_uniqueness.2.1 [⟨"1", "T", "PG", "120", "EN", "Active"⟩] [⟨"A1", "Main"⟩]
      [⟨"1", "1", "A1", "2025-01-01", "10:00", 5, "9"⟩]
      "1" "A1" "2025-01-01" "10:00" "7" "9" 7
      (by decide) (by decide) (by decide) (by decide) (by decide) (by decide),
    c3_slot_uniqueness.2.2 [⟨"1", "1", "A1", "2025-01-01", "10:00", 5, "9"⟩,
        ⟨"2", "1", "A1", "2025-01-01", "12:00", 5, "9"⟩]
      "1" "1" "A1" "2025-01-01" "12:00" "5" "9" 0
      ⟨"1", "1", "A1", "2025-01-01", "10:00", 5, "9"⟩ 5
      (by decide) (by decide) (by decide) (by decide) (by decide)⟩

/-- Counterexample to C3 as stated, at the files the program persists: on a
store of two showtimes with distinct triples, updateShowtime of show "2" with
movie id "x,A1,2025-01-01,10:00" and fresh auditorium/date/time passes the
overlap check (run against the raw inputs) and reports success, yet the
written row re-splits so that its `(s[2], s[3], s[4])` triple — the fields
every later read treats as auditorium, date and time — duplicates show "1"'s
triple exactly. -/
theorem c3_counterexample :
    ((_read_rows_loop ["1,m,A1,2025-01-01,10:00,5,9", "2,m,A2,2025-01-05,10:00,5,9"]).map
        (fun r => (r[2]?, r[3]?, r[4]?))).Nodup ∧
    rawUpdShow ["1,m,A1,2025-01-01,10:00,5,9", "2,m,A2,2025-01-05,10:00,5,9"]
        "2" "x,A1,2025-01-01,10:00" "A9" "2025-02-02" "12:00" "5" "9"
      = some (.ok, ["1,m,A1,2025-01-01,10:00,5,9",
        "2,x,A1,2025-01-01,10:00,A9,2025-02-02,12:00,5,9"]) ∧
    ¬ ((_read_rows_loop ["1,m,A1,2025-01-01,10:00,5,9",
        "2,x,A1,2025-01-01,10:00,A9,2025-02-02,12:00,5,9"]).map
          (fun r => (r[2]?, r[3]?, r[4]?))).Nodup := by
  decide

end Cinema
